import Mathlib

/-!
Verification development for the ICE port component of a WebRTC media server
(`projects/modules/ice/ice_port.cpp` / `ice_port.h`).

The session registry is a triple-indexed table: `_user_mapping_table`
(local ufrag → session), `_ice_port_info` (remote address → session) and
`_session_table` (session id → session).  In the source all three maps hold
`std::shared_ptr<IcePortInfo>` to the same record; we model this sharing with
an explicit heap (`heap : List (Nat × IcePortInfo)`) keyed by an abstract
pointer, the three tables mapping their keys to pointers.  `std::map` is
modelled as an association list with unique keys; map iteration order is the
list order (no claim below depends on the ordering of keys).

State-change notifications (`SetIceState` → `IcePortObserver::OnStateChanged`)
are modelled as an event list returned by each operation, and calls to
`ov::Socket::SendTo` as a list of `SendCall`s.
-/

namespace IceSpec

/-- Association-list lookup, modelling `std::map::find`. -/
def alookup {α β : Type} [DecidableEq α] (k : α) : List (α × β) → Option β
  | [] => none
  | (k', v) :: t => if k' = k then some v else alookup k t

/-- Association-list erase, modelling `std::map::erase(key)`
(on unique-key lists this removes the one entry with key `k`). -/
def aerase {α β : Type} [DecidableEq α] (k : α) (l : List (α × β)) : List (α × β) :=
  l.filter (fun e => decide (e.1 ≠ k))

/-- Association-list insert-or-assign, modelling `map[k] = v`.
The entry is placed at the front; the list order stands in for the map's
internal key order, on which nothing below depends. -/
def ainsert {α β : Type} [DecidableEq α] (k : α) (v : β) (l : List (α × β)) : List (α × β) :=
  (k, v) :: aerase k l

theorem alookup_mem {α β : Type} [DecidableEq α] {k : α} {v : β} {l : List (α × β)}
    (h : alookup k l = some v) : (k, v) ∈ l := by
  induction l with
  | nil => simp [alookup] at h
  | cons e t ih =>
    rw [alookup] at h
    by_cases hk : e.1 = k
    · rw [if_pos hk] at h
      cases h
      exact List.mem_cons.mpr (Or.inl (by rw [← hk]))
    · rw [if_neg hk] at h
      exact List.mem_cons_of_mem _ (ih h)

theorem alookup_isSome_of_mem {α β : Type} [DecidableEq α] {k : α} {v : β} {l : List (α × β)}
    (h : (k, v) ∈ l) : (alookup k l).isSome = true := by
  induction l with
  | nil => simp at h
  | cons e t ih =>
    rw [alookup]
    by_cases hk : e.1 = k
    · rw [if_pos hk]; rfl
    · rw [if_neg hk]
      rcases List.mem_cons.mp h with h | h
      · exact absurd (congrArg Prod.fst h.symm) hk
      · exact ih h

theorem alookup_eq_none {α β : Type} [DecidableEq α] {k : α} {l : List (α × β)}
    (h : alookup k l = none) : ∀ v : β, (k, v) ∉ l := by
  intro v hv
  have := alookup_isSome_of_mem hv
  rw [h] at this
  simp at this

theorem mem_aerase {α β : Type} [DecidableEq α] {k : α} {e : α × β} {l : List (α × β)} :
    e ∈ aerase k l ↔ e ∈ l ∧ e.1 ≠ k := by
  simp [aerase, List.mem_filter]

theorem aerase_sublist {α β : Type} [DecidableEq α] (k : α) (l : List (α × β)) :
    (aerase k l).Sublist l :=
  List.filter_sublist l

theorem mem_ainsert {α β : Type} [DecidableEq α] {k : α} {v : β} {e : α × β} {l : List (α × β)} :
    e ∈ ainsert k v l ↔ e = (k, v) ∨ (e ∈ l ∧ e.1 ≠ k) := by
  simp [ainsert, mem_aerase]

theorem alookup_ainsert_self {α β : Type} [DecidableEq α] (k : α) (v : β) (l : List (α × β)) :
    alookup k (ainsert k v l) = some v := by
  simp [ainsert, alookup]

theorem alookup_ainsert_ne {α β : Type} [DecidableEq α] {k k' : α} (v : β) (l : List (α × β))
    (h : k' ≠ k) : alookup k' (ainsert k v l) = alookup k' l := by
  rw [ainsert, alookup, if_neg (fun he => h he.symm)]
  induction l with
  | nil => simp [aerase, alookup]
  | cons e t ih =>
    by_cases hk : e.1 = k
    · rw [show aerase k (e :: t) = aerase k t by simp [aerase, hk], ih, alookup,
        if_neg (fun hek : e.1 = k' => h (hek ▸ hk))]
    · rw [show aerase k (e :: t) = e :: aerase k t by simp [aerase, hk], alookup, alookup]
      by_cases hek : e.1 = k'
      · rw [if_pos hek, if_pos hek]
      · rw [if_neg hek, if_neg hek, ih]

theorem alookup_aerase_ne {α β : Type} [DecidableEq α] {k k' : α} (l : List (α × β))
    (h : k' ≠ k) : alookup k' (aerase k l) = alookup k' l := by
  induction l with
  | nil => rfl
  | cons e t ih =>
    by_cases hk : e.1 = k
    · rw [show aerase k (e :: t) = aerase k t by simp [aerase, hk], ih, alookup,
        if_neg (fun hek : e.1 = k' => h (hek ▸ hk))]
    · rw [show aerase k (e :: t) = e :: aerase k t by simp [aerase, hk], alookup, alookup, ih]

theorem keys_nodup_ainsert {α β : Type} [DecidableEq α] {k : α} {v : β} {l : List (α × β)}
    (h : (l.map Prod.fst).Nodup) : ((ainsert k v l).map Prod.fst).Nodup := by
  rw [ainsert]
  refine List.Nodup.cons ?_ (List.Nodup.sublist (List.Sublist.map _ (aerase_sublist k l)) h)
  intro hmem
  rcases List.mem_map.mp hmem with ⟨e, he, hk⟩
  exact (mem_aerase.mp he).2 hk

theorem keys_nodup_aerase {α β : Type} [DecidableEq α] {k : α} {l : List (α × β)}
    (h : (l.map Prod.fst).Nodup) : ((aerase k l).map Prod.fst).Nodup :=
  List.Nodup.sublist (List.Sublist.map _ (aerase_sublist k l)) h

/-- With unique keys, membership determines the lookup result. -/
theorem alookup_of_mem_nodup {α β : Type} [DecidableEq α] {k : α} {v : β} {l : List (α × β)}
    (hn : (l.map Prod.fst).Nodup) (h : (k, v) ∈ l) : alookup k l = some v := by
  induction l with
  | nil => simp at h
  | cons e t ih =>
    rw [List.map_cons, List.nodup_cons] at hn
    rcases List.mem_cons.mp h with h | h
    · rw [alookup, if_pos (congrArg Prod.fst h.symm)]
      rw [← h]
    · rw [alookup]
      by_cases hk : e.1 = k
      · exact absurd (List.mem_map.mpr ⟨(k, v), h, hk.symm⟩) hn.1
      · rw [if_neg hk]
        exact ih hn.2 h

/-! ## Domain types (from `ice_port.h` and its collaborators' interfaces) -/

/-- `IcePortConnectionState` (values as used by `ice_port.cpp`). -/
inductive IcePortConnectionState : Type
  | Closed
  | New
  | Checking
  | Connected
  | Failed
  | Disconnected
deriving DecidableEq, Repr

/-- `ov::SocketType` restricted to the two transports the ICE port binds. -/
inductive SocketType : Type
  | Udp
  | Tcp
deriving DecidableEq, Repr

/-- `ov::Socket`: an abstract transport handle with an id and a type. -/
structure Socket : Type where
  id : Nat
  type : SocketType
deriving DecidableEq, Repr

/-- `ov::SocketAddress`.  The default-constructed value is `{ "", 0 }`,
matching `ov::SocketAddress()` in `IcePort::AddSession`. -/
structure SocketAddress : Type where
  host : String
  port : Nat
deriving DecidableEq, Repr

/-- The part of a `SessionDescription` that `ice_port.cpp` reads:
`GetIceUfrag()` and `GetIcePwd()`. -/
structure SessionDescription : Type where
  ice_ufrag : String
  ice_pwd : String
deriving DecidableEq, Repr

/-- `IcePort::IcePortInfo` — one record per accepted or pending peer.
The `session_info` member is represented by the session id it carries. -/
structure IcePortInfo : Type where
  session_id : Nat
  offer_sdp : SessionDescription
  peer_sdp : SessionDescription
  remote : Option Socket
  address : SocketAddress
  state : IcePortConnectionState
  expire_time : Nat
  expire_after_ms : Nat
deriving DecidableEq, Repr

/-- `IcePortInfo::IsExpired`: `system_clock::now() > expire_time`. -/
def IcePortInfo.isExpired (now : Nat) (info : IcePortInfo) : Bool :=
  decide (now > info.expire_time)

/-- A state-change notification: `SetIceState` invokes
`IcePortObserver::OnStateChanged(port, session_info, state)`; we record the
session id and the new state. -/
abbrev StateChange : Type := Nat × IcePortConnectionState

/-- What a STUN message serialized by the ICE port carries, as far as the
claims are concerned. -/
inductive OutPacket : Type
  | bindingResponse (transaction_id : List Nat) (mapped : SocketAddress) (key : String)
  | bindingRequest (username : String) (key : String)
  | raw (data : List Nat)
deriving DecidableEq, Repr

/-- One call to `ov::Socket::SendTo(address, data)`. -/
structure SendCall : Type where
  sock : Socket
  dest : SocketAddress
  packet : OutPacket
deriving DecidableEq, Repr

/-- The ICE port's registry state.  The three `std::map`s of the source hold
`std::shared_ptr<IcePortInfo>`; sharing is modelled by `heap` (pointer →
record), the tables mapping their keys to pointers.  `next_ptr` is the next
fresh pointer. -/
structure IcePort : Type where
  heap : List (Nat × IcePortInfo)
  user_mapping_table : List (String × Nat)
  ice_port_info : List (SocketAddress × Nat)
  session_table : List (Nat × Nat)
  next_ptr : Nat
deriving DecidableEq, Repr

/-- The state of a freshly constructed `IcePort`. -/
def emptyIcePort : IcePort :=
  { heap := [], user_mapping_table := [], ice_port_info := [], session_table := [],
    next_ptr := 0 }

/-- Modelled from the spec: the STUN codec (`StunMessage`, outside the given
sources) is reduced to what `ice_port.cpp` consumes from a parsed binding
message: `GetUfrags` yields the two halves of USERNAME (`username`, `none`
when the attribute cannot be parsed), and `CheckIntegrity(password)`
recomputes MESSAGE-INTEGRITY and compares (spec §4.2); we model it as
comparing `integrity_key` — the short-term password under which the
message's MESSAGE-INTEGRITY verifies, `none` when the attribute is absent
or corrupt — against the given password. -/
structure StunBindingRequest : Type where
  username : Option (String × String)
  integrity_key : Option String
  transaction_id : List Nat
deriving DecidableEq, Repr

/-- `StunMessage::CheckIntegrity(password)` (see `StunBindingRequest`). -/
def StunBindingRequest.checkIntegrity (msg : StunBindingRequest) (password : String) : Bool :=
  decide (msg.integrity_key = some password)

/-! ## Registry operations (from `ice_port.cpp`) -/

/-- Result of `IcePort::AddSession`. -/
structure AddResult : Type where
  port : IcePort
  events : List StateChange
deriving DecidableEq, Repr

/-- `IcePort::AddSession`.  On a duplicate local ufrag the source only fires
`OV_ASSERT(false, "Duplicated ufrag: ...")` (a log in release builds) and
execution continues: `_user_mapping_table[local_ufrag] = info` overwrites the
existing entry.  The record is created with state `Closed` and then
`SetIceState(..., New)` is applied to the entry just inserted. -/
def addSession (s : IcePort) (session_id : Nat) (offer_sdp peer_sdp : SessionDescription)
    (expire_after_ms : Nat) (now : Nat) : AddResult :=
  let local_ufrag := offer_sdp.ice_ufrag
  let info : IcePortInfo :=
    { session_id := session_id, offer_sdp := offer_sdp, peer_sdp := peer_sdp,
      remote := none, address := { host := "", port := 0 },
      state := .New,  -- Closed at creation, then SetIceState(..., New)
      expire_time := now + expire_after_ms,  -- UpdateBindingTime()
      expire_after_ms := expire_after_ms }
  let p := s.next_ptr
  { port := { s with heap := ainsert p info s.heap,
                     user_mapping_table := ainsert local_ufrag p s.user_mapping_table,
                     next_ptr := s.next_ptr + 1 },
    events := [(session_id, .New)] }

/-- The scan in `IcePort::RemoveSession`'s pending path: walk
`_user_mapping_table` in order and erase the first entry whose record carries
the given session id (the loop returns immediately after `erase(it++)`).
Result: `none` on a dangling pointer (impossible in the source, where the
tables hold live `shared_ptr`s), `some none` when no entry matches,
`some (some tbl)` with the table after the removal. -/
def findPendingScan (heap : List (Nat × IcePortInfo)) (session_id : Nat) :
    List (String × Nat) → Option (Option (List (String × Nat)))
  | [] => some none
  | (u, p) :: t =>
    match alookup p heap with
    | none => none
    | some info =>
      if info.session_id = session_id then
        some (some t)
      else
        match findPendingScan heap session_id t with
        | none => none
        | some none => some none
        | some (some t') => some (some ((u, p) :: t'))

/-- `IcePort::RemoveSession(session_id)`.  Bound path: erase from
`_session_table` and `_ice_port_info` (by the record's address), then from
`_user_mapping_table` (by the record's offer ufrag).  Pending path: scan
`_user_mapping_table` for a matching session id.  `none` only on a dangling
pointer, which cannot occur in the source. -/
def removeSession (s : IcePort) (session_id : Nat) : Option (Bool × IcePort) :=
  match alookup session_id s.session_table with
  | none =>
    match findPendingScan s.heap session_id s.user_mapping_table with
    | none => none
    | some none => some (false, s)
    | some (some tbl') => some (true, { s with user_mapping_table := tbl' })
  | some p =>
    match alookup p s.heap with
    | none => none
    | some info =>
      some (true,
        { s with
          session_table := aerase session_id s.session_table,
          ice_port_info := aerase info.address s.ice_port_info,
          user_mapping_table := aerase info.offer_sdp.ice_ufrag s.user_mapping_table })

/-- `IcePort::Send(session_info, data)`.  One lookup in `_session_table`;
absent → `false` and no bytes are handed to any socket.  Otherwise the source
contains `if (remote->GetType() == Tcp) { /* ice_port_info has channel id */ }`
— an empty block — and then hands the bare payload to
`remote->SendTo(address, data)` regardless of the socket type.  The `SendTo`
outcome is abstracted as success.  `none` models the null-pointer dereference
when `remote` was never set, and the (source-impossible) dangling pointer. -/
def send (s : IcePort) (session_id : Nat) (data : List Nat) :
    Option (Bool × List SendCall) :=
  match alookup session_id s.session_table with
  | none => some (false, [])
  | some p =>
    match alookup p s.heap with
    | none => none
    | some info =>
      match info.remote with
      | none => none
      | some sock =>
        -- if remote is tcp, it must be turn: the source's block here is empty
        some (true, [{ sock := sock, dest := info.address, packet := .raw data }])

/-- `IcePort::SendBindingRequest` (step 3 of the handshake): USERNAME is
`remote_ufrag:local_ufrag`, MESSAGE-INTEGRITY keyed with `peer_sdp.ice_pwd`. -/
def sendBindingRequest (remote : Socket) (address : SocketAddress) (info : IcePortInfo) :
    SendCall :=
  { sock := remote, dest := address,
    packet := .bindingRequest (info.peer_sdp.ice_ufrag ++ ":" ++ info.offer_sdp.ice_ufrag)
      info.peer_sdp.ice_pwd }

/-- `IcePort::SendBindingResponse`: serialize and send the success response
(XOR-MAPPED-ADDRESS = peer's observed address, integrity keyed with
`offer_sdp.ice_pwd`), then — if the session id is not yet in
`_session_table` — insert the record into `_ice_port_info` (keyed by the
packet's source address) and `_session_table`, and finally send our own
binding request. -/
def sendBindingResponse (s : IcePort) (remote : Socket) (address : SocketAddress)
    (req : StunBindingRequest) (p : Nat) (info : IcePortInfo) : IcePort × List SendCall :=
  let response : SendCall :=
    { sock := remote, dest := address,
      packet := .bindingResponse req.transaction_id address info.offer_sdp.ice_pwd }
  let s' :=
    if (alookup info.session_id s.session_table).isSome then s
    else { s with ice_port_info := ainsert address p s.ice_port_info,
                  session_table := ainsert info.session_id p s.session_table }
  (s', [response, sendBindingRequest remote address info])

/-- Result of `IcePort::ProcessBindingRequest`. -/
structure ReqResult : Type where
  ok : Bool
  port : IcePort
  events : List StateChange
  sends : List SendCall
deriving DecidableEq, Repr

/-- `IcePort::ProcessBindingRequest`.  USERNAME is parsed; the session is
looked up by local ufrag; a remote-ufrag mismatch only logs a warning (the
strict check is commented out in the source); on integrity failure the state
becomes `Failed`, the record is erased from all three tables and `false` is
returned with nothing sent; otherwise the binding time is refreshed, a `New`
session transitions to `Checking` capturing `remote` and `address`, and the
response/request pair is sent via `SendBindingResponse`. -/
def processBindingRequest (s : IcePort) (now : Nat) (remote : Socket)
    (address : SocketAddress) (msg : StunBindingRequest) : Option ReqResult :=
  match msg.username with
  | none => some { ok := false, port := s, events := [], sends := [] }
  | some (local_ufrag, _remote_ufrag) =>
    match alookup local_ufrag s.user_mapping_table with
    | none => some { ok := false, port := s, events := [], sends := [] }
    | some p =>
      match alookup p s.heap with
      | none => none
      | some info =>
        if msg.checkIntegrity info.offer_sdp.ice_pwd then
          let info₁ := { info with expire_time := now + info.expire_after_ms }
          if info₁.state = .New then
            let info₂ := { info₁ with
                           state := .Checking
                           remote := some remote
                           address := address }
            let s₁ := { s with heap := ainsert p info₂ s.heap }
            let r := sendBindingResponse s₁ remote address msg p info₂
            some { ok := true, port := r.1, events := [(info₁.session_id, .Checking)],
                   sends := r.2 }
          else
            let s₁ := { s with heap := ainsert p info₁ s.heap }
            let r := sendBindingResponse s₁ remote address msg p info₁
            some { ok := true, port := r.1, events := [], sends := r.2 }
        else
          let info₁ := { info with state := .Failed }
          some { ok := false
                 port := { s with
                           heap := ainsert p info₁ s.heap
                           user_mapping_table := aerase local_ufrag s.user_mapping_table
                           ice_port_info := aerase info.address s.ice_port_info
                           session_table := aerase info.session_id s.session_table }
                 events := [(info.session_id, .Failed)]
                 sends := [] }

/-- `IcePort::ResponseError`: the body is empty in the source (`TOOD: 구현
필요`) — no error response is ever sent. -/
def responseError (_remote : Socket) : List SendCall := []

/-- The `StunClass::Request` arm of `IcePort::ProcessStunPacket`: run
`ProcessBindingRequest` and call `ResponseError` when it returns `false`. -/
def processStunBindingRequest (s : IcePort) (now : Nat) (remote : Socket)
    (address : SocketAddress) (msg : StunBindingRequest) :
    Option (IcePort × List StateChange × List SendCall) :=
  match processBindingRequest s now remote address msg with
  | none => none
  | some r => some (r.port, r.events, r.sends ++ (if r.ok then [] else responseError remote))

/-- Result of `IcePort::ProcessBindingResponse`. -/
structure RespResult : Type where
  ok : Bool
  port : IcePort
  events : List StateChange
deriving DecidableEq, Repr

/-- `IcePort::ProcessBindingResponse`: look up by source address (absent →
drop), check integrity against `offer_sdp.ice_pwd` (failure → log and return,
nothing is mutated), then transition to `Connected` unless already there. -/
def processBindingResponse (s : IcePort) (address : SocketAddress)
    (msg : StunBindingRequest) : Option RespResult :=
  match alookup address s.ice_port_info with
  | none => some { ok := false, port := s, events := [] }
  | some p =>
    match alookup p s.heap with
    | none => none
    | some info =>
      if msg.checkIntegrity info.offer_sdp.ice_pwd then
        if info.state = .Connected then
          some { ok := true, port := s, events := [] }
        else
          some { ok := true,
                 port := { s with heap := ainsert p { info with state := .Connected } s.heap },
                 events := [(info.session_id, .Connected)] }
      else
        some { ok := false, port := s, events := [] }

/-- Intermediate result of the first phase of `IcePort::CheckTimedoutItem`. -/
structure Phase1Result : Type where
  heap : List (Nat × IcePortInfo)
  table : List (String × Nat)
  del : List Nat
  events : List StateChange
deriving DecidableEq, Repr

/-- Phase 1 of `IcePort::CheckTimedoutItem` (under the ufrag lock): walk
`_user_mapping_table`; every expired record is set to `Disconnected` (with
an observer notification), pushed onto `delete_list` and erased from the
table. -/
def checkTimedoutPhase1 (now : Nat) (heap : List (Nat × IcePortInfo)) :
    List (String × Nat) → Option Phase1Result
  | [] => some { heap := heap, table := [], del := [], events := [] }
  | (u, p) :: t =>
    match alookup p heap with
    | none => none
    | some info =>
      if info.isExpired now then
        let heap' := ainsert p { info with state := .Disconnected } heap
        match checkTimedoutPhase1 now heap' t with
        | none => none
        | some r =>
          some { r with
                 del := p :: r.del
                 events := (info.session_id, .Disconnected) :: r.events }
      else
        match checkTimedoutPhase1 now heap t with
        | none => none
        | some r => some { r with table := (u, p) :: r.table }

/-- Phase 2 of `IcePort::CheckTimedoutItem` (under the active-sessions lock):
for every record on `delete_list`, erase `_session_table` at its session id
and `_ice_port_info` at its address. -/
def checkTimedoutPhase2 (heap : List (Nat × IcePortInfo)) :
    List Nat → List (SocketAddress × Nat) → List (Nat × Nat) →
    Option (List (SocketAddress × Nat) × List (Nat × Nat))
  | [], addr_tbl, sess_tbl => some (addr_tbl, sess_tbl)
  | p :: t, addr_tbl, sess_tbl =>
    match alookup p heap with
    | none => none
    | some info =>
      checkTimedoutPhase2 heap t (aerase info.address addr_tbl)
        (aerase info.session_id sess_tbl)

/-- Result of `IcePort::CheckTimedoutItem`. -/
structure TimeoutResult : Type where
  port : IcePort
  events : List StateChange
deriving DecidableEq, Repr

/-- `IcePort::CheckTimedoutItem`: phase 1 then phase 2 (the two-phase shape
of the source, preserving the ufrag-lock-first ordering). -/
def checkTimedoutItem (s : IcePort) (now : Nat) : Option TimeoutResult :=
  match checkTimedoutPhase1 now s.heap s.user_mapping_table with
  | none => none
  | some mid =>
    match checkTimedoutPhase2 mid.heap mid.del s.ice_port_info s.session_table with
    | none => none
    | some (addr_tbl, sess_tbl) =>
      some { port := { s with
                       heap := mid.heap
                       user_mapping_table := mid.table
                       ice_port_info := addr_tbl
                       session_table := sess_tbl }
             events := mid.events }

/-- A bound listening endpoint (`PhysicalPort`), identified abstractly. -/
structure PhysicalPort : Type where
  id : Nat
deriving DecidableEq, Repr

/-- `IcePort::CreateTurnServer`: when `CreatePhysicalPort` fails the function
returns `false`; when it succeeds the port is appended to
`_physical_port_list` — and the final statement is `return false;` as well. -/
def createTurnServer (physical_port : Option PhysicalPort)
    (physical_port_list : List PhysicalPort) : Bool × List PhysicalPort :=
  match physical_port with
  | none => (false, physical_port_list)
  | some p => (false, physical_port_list ++ [p])

/-! ## Packet classification and TURN channel data (ingress dispatcher) -/

/-- `IcePacketIdentifier::PacketType`. -/
inductive PacketType : Type
  | STUN
  | TURN_CHANNEL_DATA
  | DTLS
  | RTP_RTCP
  | ZRTP
  | UNKNOWN
deriving DecidableEq, Repr

/-- Modelled from the spec: `IcePacketIdentifier::FindPacketType` (outside
the given sources) classifies a datagram by its first byte (spec §4.1):
`0x00..0x03` STUN, `0x40..0x7F` TURN channel data, `0x14..0x17` DTLS,
`0x80..0xBF` RTP/RTCP, `0x10..0x13` ZRTP, anything else UNKNOWN. -/
def findPacketType (data : List Nat) : PacketType :=
  match data with
  | [] => .UNKNOWN
  | b :: _ =>
    if b ≤ 0x03 then .STUN
    else if 0x40 ≤ b ∧ b ≤ 0x7F then .TURN_CHANNEL_DATA
    else if 0x14 ≤ b ∧ b ≤ 0x17 then .DTLS
    else if 0x80 ≤ b ∧ b ≤ 0xBF then .RTP_RTCP
    else if 0x10 ≤ b ∧ b ≤ 0x13 then .ZRTP
    else .UNKNOWN

/-- A parsed TURN channel-data message. -/
structure ChannelDataMessage : Type where
  channel : Nat
  payload : List Nat
deriving DecidableEq, Repr

/-- Modelled from the spec: `ChannelDataMessage::Load` (outside the given
sources) parses the 4-byte header — 2-byte channel number, 2-byte data
length — and exposes the inner payload (spec §3, §6: RFC 5766 §11.4);
loading fails when the buffer does not contain the advertised payload. -/
def channelDataLoad (data : List Nat) : Option ChannelDataMessage :=
  match data with
  | c1 :: c2 :: l1 :: l2 :: rest =>
    if rest.length ≥ l1 * 256 + l2 then
      some { channel := c1 * 256 + c2, payload := rest.take (l1 * 256 + l2) }
    else
      none
  | _ => none

theorem channelDataLoad_payload_le {data : List Nat} {msg : ChannelDataMessage}
    (h : channelDataLoad data = some msg) : msg.payload.length + 4 ≤ data.length := by
  match data with
  | [] => simp [channelDataLoad] at h
  | [_] => simp [channelDataLoad] at h
  | [_, _] => simp [channelDataLoad] at h
  | [_, _, _] => simp [channelDataLoad] at h
  | c1 :: c2 :: l1 :: l2 :: rest =>
    rw [channelDataLoad] at h
    split at h
    · cases h
      have : (rest.take (l1 * 256 + l2)).length ≤ rest.length := by
        rw [List.length_take]; omega
      simp only [List.length_cons]
      omega
    · cases h

theorem channelDataLoad_payload_lt {data : List Nat} {msg : ChannelDataMessage}
    (h : channelDataLoad data = some msg) : msg.payload.length < data.length := by
  have := channelDataLoad_payload_le h
  omega

/-- `IcePort::ProcessPacket` / `IcePort::ProcessChannelDataPacket`: a
TURN-channel-data packet is decapsulated, its inner payload reclassified
with `FindPacketType` and redispatched through `ProcessPacket`; the source
contains no depth guard, so the recursion continues while the inner payload
classifies as channel data (it terminates because each decapsulation strips
at least the 4-byte header).  The result records the channel numbers
decapsulated, outermost first, and the packet type finally dispatched. -/
def processPacketRec : PacketType → List Nat → List Nat × PacketType
  | .TURN_CHANNEL_DATA, data =>
    match h : channelDataLoad data with
    | none => ([], .TURN_CHANNEL_DATA)
    | some msg =>
      let r := processPacketRec (findPacketType msg.payload) msg.payload
      (msg.channel :: r.1, r.2)
  | ty, _ => ([], ty)
termination_by ty data => data.length
decreasing_by
  exact channelDataLoad_payload_lt h

/-- Modelled from the spec: the TURN channel-data encapsulation the send
path is specified to apply on the TCP (TURN relay) path — the 4-byte
header (2-byte channel number, 2-byte length) followed by the payload. -/
def turnChannelDataWrap (channel : Nat) (data : List Nat) : List Nat :=
  [channel / 256 % 256, channel % 256, data.length / 256 % 256, data.length % 256] ++ data

/-! ## Registry invariants -/

/-- All pointers reachable from the three registry tables. -/
def tablePtrs (s : IcePort) : List Nat :=
  s.user_mapping_table.map Prod.snd ++ s.ice_port_info.map Prod.snd ++
    s.session_table.map Prod.snd

/-- Whether a table contains (a pointer to) a record carrying the given
session id. -/
def tableHasSession {α : Type} [DecidableEq α] (heap : List (Nat × IcePortInfo))
    (tbl : List (α × Nat)) (session_id : Nat) : Bool :=
  tbl.any fun e =>
    match alookup e.2 heap with
    | some r => decide (r.session_id = session_id)
    | none => false

/-- Every record reachable from `_session_table` has a bound remote socket. -/
def sessionRemotesBound (s : IcePort) : Bool :=
  s.session_table.all fun e =>
    match alookup e.2 s.heap with
    | some r => r.remote.isSome
    | none => false

/-- The signaling layer's contract on `AddSession`: the session id being
added is not already carried by any registered record (spec §3, registry
invariant 3: no two live sessions share a `session_id`). -/
def sidFresh (s : IcePort) (session_id : Nat) : Bool :=
  (tablePtrs s).all fun q =>
    match alookup q s.heap with
    | some r => decide (r.session_id ≠ session_id)
    | none => true

/-- Executable registry invariant (spec §3 "registry invariants", §8
"invariants"), used as the hypothesis of the per-operation theorems and
established inductively for reachable states:
table keys match the fields of the records they point to; records in the
address and session-id tables are past `New`, have a bound remote socket,
and the two tables are consistent; keys are unique per table; a session id
determines the record pointer across all tables; heap pointers are below
`next_ptr`; and a ufrag-table record past `New` is registered in the
session-id table. -/
def invCheck (s : IcePort) : Bool :=
  (s.user_mapping_table.all fun e =>
    match alookup e.2 s.heap with
    | some r => decide (r.offer_sdp.ice_ufrag = e.1)
    | none => false) &&
  (s.ice_port_info.all fun e =>
    match alookup e.2 s.heap with
    | some r =>
      decide (r.address = e.1) && decide (r.state ≠ .New) && r.remote.isSome &&
        decide (alookup r.session_id s.session_table = some e.2)
    | none => false) &&
  (s.session_table.all fun e =>
    match alookup e.2 s.heap with
    | some r => decide (r.session_id = e.1) && decide (r.state ≠ .New) && r.remote.isSome
    | none => false) &&
  decide (s.user_mapping_table.map Prod.fst).Nodup &&
  decide (s.ice_port_info.map Prod.fst).Nodup &&
  decide (s.session_table.map Prod.fst).Nodup &&
  ((tablePtrs s).all fun q₁ =>
    (tablePtrs s).all fun q₂ =>
      match alookup q₁ s.heap, alookup q₂ s.heap with
      | some r₁, some r₂ => decide (r₁.session_id = r₂.session_id → q₁ = q₂)
      | _, _ => true) &&
  (s.heap.all fun e => decide (e.1 < s.next_ptr)) &&
  (s.user_mapping_table.all fun e =>
    match alookup e.2 s.heap with
    | some r =>
      decide (r.state = .New) ||
        (r.remote.isSome && decide (alookup r.session_id s.session_table = some e.2))
    | none => false)

/-- The registry invariant as a proposition. -/
abbrev Inv (s : IcePort) : Prop := invCheck s = true

/-- The registry invariant, unfolded into the form the proofs consume. -/
structure InvFacts (s : IcePort) : Prop where
  ufrag_key : ∀ e ∈ s.user_mapping_table,
    ∃ r, alookup e.2 s.heap = some r ∧ r.offer_sdp.ice_ufrag = e.1
  addr_key : ∀ e ∈ s.ice_port_info,
    ∃ r, alookup e.2 s.heap = some r ∧ r.address = e.1 ∧ r.state ≠ .New ∧
      r.remote.isSome = true ∧ alookup r.session_id s.session_table = some e.2
  sess_key : ∀ e ∈ s.session_table,
    ∃ r, alookup e.2 s.heap = some r ∧ r.session_id = e.1 ∧ r.state ≠ .New ∧
      r.remote.isSome = true
  ufrag_nodup : (s.user_mapping_table.map Prod.fst).Nodup
  addr_nodup : (s.ice_port_info.map Prod.fst).Nodup
  sess_nodup : (s.session_table.map Prod.fst).Nodup
  sid_inj : ∀ q₁ ∈ tablePtrs s, ∀ q₂ ∈ tablePtrs s, ∀ r₁ r₂,
    alookup q₁ s.heap = some r₁ → alookup q₂ s.heap = some r₂ →
    r₁.session_id = r₂.session_id → q₁ = q₂
  fresh : ∀ q, (alookup q s.heap).isSome = true → q < s.next_ptr
  ufrag_bound : ∀ e ∈ s.user_mapping_table,
    ∃ r, alookup e.2 s.heap = some r ∧
      (r.state = .New ∨
        (r.remote.isSome = true ∧ alookup r.session_id s.session_table = some e.2))

theorem mem_tablePtrs_ufrag {s : IcePort} {e : String × Nat}
    (h : e ∈ s.user_mapping_table) : e.2 ∈ tablePtrs s := by
  unfold tablePtrs
  exact List.mem_append.mpr (Or.inl (List.mem_append.mpr (Or.inl (List.mem_map.mpr ⟨e, h, rfl⟩))))

theorem mem_tablePtrs_addr {s : IcePort} {e : SocketAddress × Nat}
    (h : e ∈ s.ice_port_info) : e.2 ∈ tablePtrs s := by
  unfold tablePtrs
  exact List.mem_append.mpr (Or.inl (List.mem_append.mpr (Or.inr (List.mem_map.mpr ⟨e, h, rfl⟩))))

theorem mem_tablePtrs_sess {s : IcePort} {e : Nat × Nat}
    (h : e ∈ s.session_table) : e.2 ∈ tablePtrs s := by
  unfold tablePtrs
  exact List.mem_append.mpr (Or.inr (List.mem_map.mpr ⟨e, h, rfl⟩))

theorem tableHasSession_eq_false {α : Type} [DecidableEq α]
    {heap : List (Nat × IcePortInfo)} {tbl : List (α × Nat)} {session_id : Nat}
    (h : ∀ e ∈ tbl, ∀ r, alookup e.2 heap = some r → r.session_id ≠ session_id) :
    tableHasSession heap tbl session_id = false := by
  rw [tableHasSession, List.any_eq_false]
  intro e he
  cases hq : alookup e.2 heap with
  | none => simp
  | some r => simpa using h e he r hq

/-- Unpack the executable invariant into its propositional form. -/
theorem invFacts_of_inv {s : IcePort} (h : Inv s) : InvFacts s := by
  rw [Inv, invCheck] at h
  simp only [Bool.and_eq_true] at h
  obtain ⟨⟨⟨⟨⟨⟨⟨⟨h₁, h₂⟩, h₃⟩, h₄⟩, h₅⟩, h₆⟩, h₇⟩, h₈⟩, h₉⟩ := h
  rw [List.all_eq_true] at h₁ h₂ h₃ h₇ h₈ h₉
  constructor
  · intro e he
    have := h₁ e he
    cases hq : alookup e.2 s.heap with
    | none => rw [hq] at this; cases this
    | some r => rw [hq] at this; exact ⟨r, rfl, by simpa using this⟩
  · intro e he
    have := h₂ e he
    cases hq : alookup e.2 s.heap with
    | none => rw [hq] at this; cases this
    | some r =>
      rw [hq] at this
      simp only [Bool.and_eq_true, decide_eq_true_eq] at this
      exact ⟨r, rfl, this.1.1.1, this.1.1.2, this.1.2, this.2⟩
  · intro e he
    have := h₃ e he
    cases hq : alookup e.2 s.heap with
    | none => rw [hq] at this; cases this
    | some r =>
      rw [hq] at this
      simp only [Bool.and_eq_true, decide_eq_true_eq] at this
      exact ⟨r, rfl, this.1.1, this.1.2, this.2⟩
  · simpa using h₄
  · simpa using h₅
  · simpa using h₆
  · intro q₁ hq₁ q₂ hq₂ r₁ r₂ hr₁ hr₂ hsid
    have := h₇ q₁ hq₁
    rw [List.all_eq_true] at this
    have := this q₂ hq₂
    rw [hr₁, hr₂] at this
    simp only [decide_eq_true_eq] at this
    exact this hsid
  · intro q hq
    obtain ⟨r, hr⟩ := Option.isSome_iff_exists.mp hq
    have := h₈ (q, r) (alookup_mem hr)
    simpa using this
  · intro e he
    have := h₉ e he
    cases hq : alookup e.2 s.heap with
    | none => rw [hq] at this; cases this
    | some r =>
      rw [hq] at this
      simp only [Bool.or_eq_true, Bool.and_eq_true, decide_eq_true_eq] at this
      exact ⟨r, rfl, this⟩

/-! ## Invariant preservation (claim C10) -/

theorem tablePtrs_cases {s : IcePort} {q : Nat} (h : q ∈ tablePtrs s) :
    (∃ e ∈ s.user_mapping_table, e.2 = q) ∨ (∃ e ∈ s.ice_port_info, e.2 = q) ∨
    (∃ e ∈ s.session_table, e.2 = q) := by
  simp only [tablePtrs, List.mem_append, List.mem_map] at h
  rcases h with (⟨e, he, hq⟩ | ⟨e, he, hq⟩) | ⟨e, he, hq⟩
  · exact Or.inl ⟨e, he, hq⟩
  · exact Or.inr (Or.inl ⟨e, he, hq⟩)
  · exact Or.inr (Or.inr ⟨e, he, hq⟩)

theorem tablePtrs_live {s : IcePort} (facts : InvFacts s) {q : Nat} (h : q ∈ tablePtrs s) :
    (alookup q s.heap).isSome = true := by
  rcases tablePtrs_cases h with ⟨e, he, hq⟩ | ⟨e, he, hq⟩ | ⟨e, he, hq⟩
  · obtain ⟨r, hr, -⟩ := facts.ufrag_key e he
    rw [← hq, hr]; rfl
  · obtain ⟨r, hr, -⟩ := facts.addr_key e he
    rw [← hq, hr]; rfl
  · obtain ⟨r, hr, -⟩ := facts.sess_key e he
    rw [← hq, hr]; rfl

/-- Session-id injectivity transfers along any state change that only
shrinks the pointer set and preserves each record's session id. -/
theorem sid_inj_transfer {s s' : IcePort}
    (hsub : ∀ q, q ∈ tablePtrs s' → q ∈ tablePtrs s)
    (hheap : ∀ q r', alookup q s'.heap = some r' →
      ∃ r, alookup q s.heap = some r ∧ r'.session_id = r.session_id)
    (hinj : ∀ q₁ ∈ tablePtrs s, ∀ q₂ ∈ tablePtrs s, ∀ r₁ r₂,
      alookup q₁ s.heap = some r₁ → alookup q₂ s.heap = some r₂ →
      r₁.session_id = r₂.session_id → q₁ = q₂) :
    ∀ q₁ ∈ tablePtrs s', ∀ q₂ ∈ tablePtrs s', ∀ r₁ r₂,
      alookup q₁ s'.heap = some r₁ → alookup q₂ s'.heap = some r₂ →
      r₁.session_id = r₂.session_id → q₁ = q₂ := by
  intro q₁ h₁ q₂ h₂ r₁ r₂ hr₁ hr₂ hsid
  obtain ⟨t₁, ht₁, hs₁⟩ := hheap q₁ r₁ hr₁
  obtain ⟨t₂, ht₂, hs₂⟩ := hheap q₂ r₂ hr₂
  exact hinj q₁ (hsub q₁ h₁) q₂ (hsub q₂ h₂) t₁ t₂ ht₁ ht₂ (by rw [← hs₁, hsid, hs₂])

theorem sidFresh_spec {s : IcePort} {session_id : Nat} (h : sidFresh s session_id = true) :
    ∀ q ∈ tablePtrs s, ∀ r, alookup q s.heap = some r → r.session_id ≠ session_id := by
  rw [sidFresh, List.all_eq_true] at h
  intro q hq r hr
  have := h q hq
  rw [hr] at this
  simpa using this

theorem invFacts_empty : InvFacts emptyIcePort := by
  constructor <;> intros <;> simp_all [emptyIcePort, tablePtrs, alookup]

/-- `AddSession` preserves the registry invariant, given the signaling
layer's guarantee that the session id is fresh. -/
theorem invFacts_addSession (s : IcePort) (session_id : Nat)
    (offer_sdp peer_sdp : SessionDescription) (expire_after_ms now : Nat)
    (facts : InvFacts s) (hfresh : sidFresh s session_id = true) :
    InvFacts (addSession s session_id offer_sdp peer_sdp expire_after_ms now).port := by
  have hnotP : ∀ q, (alookup q s.heap).isSome = true → q ≠ s.next_ptr :=
    fun q h => Nat.ne_of_lt (facts.fresh q h)
  refine ⟨?_, ?_, ?_, ?_, ?_, ?_, ?_, ?_, ?_⟩
  · intro e he
    simp only [addSession] at he ⊢
    rcases mem_ainsert.mp he with he | ⟨he, hne⟩
    · subst he
      exact ⟨_, alookup_ainsert_self _ _ _, rfl⟩
    · obtain ⟨r, hr, huf⟩ := facts.ufrag_key e he
      have hqp : e.2 ≠ s.next_ptr := hnotP e.2 (by rw [hr]; rfl)
      exact ⟨r, by rw [alookup_ainsert_ne _ _ hqp]; exact hr, huf⟩
  · intro e he
    simp only [addSession] at he ⊢
    obtain ⟨r, hr, hkey, hst, hrem, hsess⟩ := facts.addr_key e he
    have hqp : e.2 ≠ s.next_ptr := hnotP e.2 (by rw [hr]; rfl)
    exact ⟨r, by rw [alookup_ainsert_ne _ _ hqp]; exact hr, hkey, hst, hrem, hsess⟩
  · intro e he
    simp only [addSession] at he ⊢
    obtain ⟨r, hr, hkey, hst, hrem⟩ := facts.sess_key e he
    have hqp : e.2 ≠ s.next_ptr := hnotP e.2 (by rw [hr]; rfl)
    exact ⟨r, by rw [alookup_ainsert_ne _ _ hqp]; exact hr, hkey, hst, hrem⟩
  · simp only [addSession]
    exact keys_nodup_ainsert facts.ufrag_nodup
  · simp only [addSession]
    exact facts.addr_nodup
  · simp only [addSession]
    exact facts.sess_nodup
  · intro q₁ h₁ q₂ h₂ r₁ r₂ hr₁ hr₂ hsid
    simp only [addSession] at h₁ h₂ hr₁ hr₂
    have hcase : ∀ q r', q ∈ tablePtrs (addSession s session_id offer_sdp peer_sdp
        expire_after_ms now).port →
        alookup q (ainsert s.next_ptr
          { session_id := session_id, offer_sdp := offer_sdp, peer_sdp := peer_sdp,
            remote := none, address := { host := "", port := 0 }, state := .New,
            expire_time := now + expire_after_ms, expire_after_ms := expire_after_ms }
          s.heap) = some r' →
        (q = s.next_ptr ∧ r'.session_id = session_id) ∨
        (q ∈ tablePtrs s ∧ alookup q s.heap = some r') := by
      intro q r' hq hr'
      by_cases hqp : q = s.next_ptr
      · subst hqp
        rw [alookup_ainsert_self] at hr'
        cases hr'
        exact Or.inl ⟨rfl, rfl⟩
      · rw [alookup_ainsert_ne _ _ hqp] at hr'
        refine Or.inr ⟨?_, hr'⟩
        rcases tablePtrs_cases hq with ⟨e, he, hq'⟩ | ⟨e, he, hq'⟩ | ⟨e, he, hq'⟩
        · simp only [addSession] at he
          rcases mem_ainsert.mp he with he | ⟨he, -⟩
          · subst he
            exact absurd hq'.symm hqp
          · exact hq' ▸ mem_tablePtrs_ufrag he
        · simp only [addSession] at he
          exact hq' ▸ mem_tablePtrs_addr he
        · simp only [addSession] at he
          exact hq' ▸ mem_tablePtrs_sess he
    rcases hcase q₁ r₁ h₁ hr₁ with ⟨hq₁, hs₁⟩ | ⟨hq₁, hs₁⟩ <;>
      rcases hcase q₂ r₂ h₂ hr₂ with ⟨hq₂, hs₂⟩ | ⟨hq₂, hs₂⟩
    · rw [hq₁, hq₂]
    · exact absurd (by rw [← hsid, hs₁]) (sidFresh_spec hfresh q₂ hq₂ r₂ hs₂)
    · exact absurd (by rw [hsid, hs₂]) (sidFresh_spec hfresh q₁ hq₁ r₁ hs₁)
    · exact facts.sid_inj q₁ hq₁ q₂ hq₂ r₁ r₂ hs₁ hs₂ hsid
  · intro q hq
    simp only [addSession] at hq ⊢
    by_cases hqp : q = s.next_ptr
    · rw [hqp]
      exact Nat.lt_succ_self _
    · rw [alookup_ainsert_ne _ _ hqp] at hq
      exact Nat.lt_succ_of_lt (facts.fresh q hq)
  · intro e he
    simp only [addSession] at he ⊢
    rcases mem_ainsert.mp he with he | ⟨he, hne⟩
    · subst he
      exact ⟨_, alookup_ainsert_self _ _ _, Or.inl rfl⟩
    · obtain ⟨r, hr, hdisj⟩ := facts.ufrag_bound e he
      have hqp : e.2 ≠ s.next_ptr := hnotP e.2 (by rw [hr]; rfl)
      exact ⟨r, by rw [alookup_ainsert_ne _ _ hqp]; exact hr, hdisj⟩

/-- `ProcessBindingResponse` preserves the registry invariant. -/
theorem invFacts_processBindingResponse (s : IcePort) (address : SocketAddress)
    (msg : StunBindingRequest) (r : RespResult)
    (facts : InvFacts s) (heq : processBindingResponse s address msg = some r) :
    InvFacts r.port := by
  cases haddr : alookup address s.ice_port_info with
  | none =>
    simp only [processBindingResponse, haddr, Option.some.injEq] at heq
    rw [← heq]
    exact facts
  | some p =>
    cases hp : alookup p s.heap with
    | none =>
      simp only [processBindingResponse, haddr, hp] at heq
      cases heq
    | some info =>
      simp only [processBindingResponse, haddr, hp] at heq
      split at heq
      · split at heq
        · rw [Option.some.injEq] at heq
          rw [← heq]
          exact facts
        · rw [Option.some.injEq] at heq
          rw [← heq]
          have hmemA : (address, p) ∈ s.ice_port_info := alookup_mem haddr
          obtain ⟨r₀, hr₀, hkeyA, hstA, hremA, hsessA⟩ := facts.addr_key (address, p) hmemA
          have hr₀' : alookup p s.heap = some r₀ := hr₀
          rw [hp] at hr₀'
          cases hr₀'
          refine ⟨?_, ?_, ?_, facts.ufrag_nodup, facts.addr_nodup, facts.sess_nodup,
            ?_, ?_, ?_⟩
          · intro e he
            obtain ⟨r', hr', huf⟩ := facts.ufrag_key e he
            by_cases hqp : e.2 = p
            · rw [hqp, hp] at hr'
              cases hr'
              refine ⟨{ info with state := .Connected }, ?_, huf⟩
              show alookup e.2 (ainsert p { info with state := .Connected } s.heap) =
                some { info with state := .Connected }
              rw [hqp]
              exact alookup_ainsert_self _ _ _
            · refine ⟨r', ?_, huf⟩
              show alookup e.2 (ainsert p { info with state := .Connected } s.heap) = some r'
              rw [alookup_ainsert_ne _ _ hqp]
              exact hr'
          · intro e he
            obtain ⟨r', hr', hkey, hst, hrem, hsess⟩ := facts.addr_key e he
            by_cases hqp : e.2 = p
            · rw [hqp, hp] at hr'
              cases hr'
              refine ⟨{ info with state := .Connected }, ?_, hkey, by simp, hrem, hsess⟩
              show alookup e.2 (ainsert p { info with state := .Connected } s.heap) =
                some { info with state := .Connected }
              rw [hqp]
              exact alookup_ainsert_self _ _ _
            · refine ⟨r', ?_, hkey, hst, hrem, hsess⟩
              show alookup e.2 (ainsert p { info with state := .Connected } s.heap) = some r'
              rw [alookup_ainsert_ne _ _ hqp]
              exact hr'
          · intro e he
            obtain ⟨r', hr', hkey, hst, hrem⟩ := facts.sess_key e he
            by_cases hqp : e.2 = p
            · rw [hqp, hp] at hr'
              cases hr'
              refine ⟨{ info with state := .Connected }, ?_, hkey, by simp, hrem⟩
              show alookup e.2 (ainsert p { info with state := .Connected } s.heap) =
                some { info with state := .Connected }
              rw [hqp]
              exact alookup_ainsert_self _ _ _
            · refine ⟨r', ?_, hkey, hst, hrem⟩
              show alookup e.2 (ainsert p { info with state := .Connected } s.heap) = some r'
              rw [alookup_ainsert_ne _ _ hqp]
              exact hr'
          · refine @sid_inj_transfer s _ (fun q hq => hq) ?_ facts.sid_inj
            intro q r' hr'
            have hr'' : alookup q (ainsert p { info with state := .Connected } s.heap) =
              some r' := hr'
            by_cases hqp : q = p
            · subst hqp
              rw [alookup_ainsert_self] at hr''
              cases hr''
              exact ⟨info, hp, rfl⟩
            · rw [alookup_ainsert_ne _ _ hqp] at hr''
              exact ⟨r', hr'', rfl⟩
          · intro q hq
            have hq' : (alookup q (ainsert p { info with state := .Connected } s.heap)).isSome =
              true := hq
            by_cases hqp : q = p
            · subst hqp
              exact facts.fresh q (by rw [hp]; rfl)
            · rw [alookup_ainsert_ne _ _ hqp] at hq'
              exact facts.fresh q hq'
          · intro e he
            obtain ⟨r', hr', hdisj⟩ := facts.ufrag_bound e he
            by_cases hqp : e.2 = p
            · rw [hqp, hp] at hr'
              cases hr'
              rcases hdisj with hnew | ⟨hrem, hsess⟩
              · exact absurd hnew hstA
              · refine ⟨{ info with state := .Connected }, ?_, Or.inr ⟨hrem, hsess⟩⟩
                show alookup e.2 (ainsert p { info with state := .Connected } s.heap) =
                  some { info with state := .Connected }
                rw [hqp]
                exact alookup_ainsert_self _ _ _
            · refine ⟨r', ?_, hdisj⟩
              show alookup e.2 (ainsert p { info with state := .Connected } s.heap) = some r'
              rw [alookup_ainsert_ne _ _ hqp]
              exact hr'
      · rw [Option.some.injEq] at heq
        rw [← heq]
        exact facts

/-- One session added: `add_session(1, offer{ufrag="u",pwd="pw"},
peer{ufrag="v",pwd="pw2"})` with timeout 30000 at time 0. -/
def exPort1 : IcePort := (addSession emptyIcePort 1 ⟨"u", "pw"⟩ ⟨"v", "pw2"⟩ 30000 0).port

def exSock : Socket := ⟨7, .Udp⟩

def exAddr : SocketAddress := ⟨"198.51.100.7", 54321⟩

/-- A binding request with USERNAME `u:v` whose MESSAGE-INTEGRITY verifies
under "pw". -/
def exReq : StunBindingRequest := ⟨some ("u", "v"), some "pw", [1, 2, 3]⟩

/-- `exPort1` after the accepted binding request from `exAddr`: the session
is bound (state `Checking`, present in all three tables). -/
def exPort2 : IcePort :=
  match processBindingRequest exPort1 5 exSock exAddr exReq with
  | some r => r.port
  | none => exPort1

def exSockTcp : Socket := ⟨5, .Tcp⟩

/-- `exPort1` after the same handshake arriving over the built-in TURN
relay's TCP socket. -/
def exPortTcp : IcePort :=
  match processBindingRequest exPort1 5 exSockTcp exAddr exReq with
  | some r => r.port
  | none => exPort1

/-- `exPort1` after a second `addSession` carrying the same local ufrag
`"u"` (session id 2). -/
def exPortDup : IcePort := (addSession exPort1 2 ⟨"u", "px"⟩ ⟨"w", "py"⟩ 30000 0).port

/-- The session record of `exPort2` (bound, `Checking`). -/
def exInfo2 : IcePortInfo :=
  { session_id := 1, offer_sdp := ⟨"u", "pw"⟩, peer_sdp := ⟨"v", "pw2"⟩,
    remote := some exSock, address := exAddr, state := .Checking,
    expire_time := 30005, expire_after_ms := 30000 }

/-! ## Claim C1 — integrity failure on a binding request -/

/-- The state produced by the integrity-failure branch of
`ProcessBindingRequest`: the record's state set to `Failed`, the entry erased
from the ufrag, address and session-id tables. -/
def integrityFailedPort (s : IcePort) (local_ufrag : String) (p : Nat)
    (info : IcePortInfo) : IcePort :=
  { s with
    heap := ainsert p { info with state := .Failed } s.heap
    user_mapping_table := aerase local_ufrag s.user_mapping_table
    ice_port_info := aerase info.address s.ice_port_info
    session_table := aerase info.session_id s.session_table }

/-- C1: a binding request whose USERNAME resolves to a registered session
but whose integrity check fails transitions the session to `Failed`
(observer notification and heap record), evicts it from the ufrag, address
and session-id tables, and sends no packet to the peer (`ResponseError` is
a no-op). -/
theorem claim1_integrity_failure_evicts (s : IcePort) (now : Nat) (remote : Socket)
    (address : SocketAddress) (msg : StunBindingRequest) (lu ru : String) (p : Nat)
    (info : IcePortInfo)
    (hInv : Inv s)
    (hun : msg.username = some (lu, ru))
    (hlu : alookup lu s.user_mapping_table = some p)
    (hp : alookup p s.heap = some info)
    (hbad : msg.checkIntegrity info.offer_sdp.ice_pwd = false) :
    processStunBindingRequest s now remote address msg =
      some (integrityFailedPort s lu p info, [(info.session_id, .Failed)], []) ∧
    alookup p (integrityFailedPort s lu p info).heap = some { info with state := .Failed } ∧
    tableHasSession (integrityFailedPort s lu p info).heap
      (integrityFailedPort s lu p info).user_mapping_table info.session_id = false ∧
    tableHasSession (integrityFailedPort s lu p info).heap
      (integrityFailedPort s lu p info).ice_port_info info.session_id = false ∧
    tableHasSession (integrityFailedPort s lu p info).heap
      (integrityFailedPort s lu p info).session_table info.session_id = false := by
  have facts := invFacts_of_inv hInv
  have hmem_lu : (lu, p) ∈ s.user_mapping_table := alookup_mem hlu
  have hplu : p ∈ tablePtrs s := mem_tablePtrs_ufrag hmem_lu
  obtain ⟨info₀, hinfo₀, hufrag₀⟩ := facts.ufrag_key (lu, p) hmem_lu
  have hinfo₀2 : alookup p s.heap = some info₀ := hinfo₀
  rw [hp] at hinfo₀2
  cases hinfo₀2
  have hufrag₁ : info.offer_sdp.ice_ufrag = lu := hufrag₀
  refine ⟨?_, ?_, ?_, ?_, ?_⟩
  · simp [processStunBindingRequest, processBindingRequest, hun, hlu, hp, hbad,
      responseError, integrityFailedPort]
  · simp [integrityFailedPort, alookup_ainsert_self]
  · apply tableHasSession_eq_false
    intro e he r hr hsid
    simp only [integrityFailedPort] at he hr
    obtain ⟨hmem, hne⟩ := mem_aerase.mp he
    by_cases hqp : e.2 = p
    · obtain ⟨r₀, hr₀, huf⟩ := facts.ufrag_key e hmem
      rw [hqp, hp] at hr₀
      cases hr₀
      exact hne (huf ▸ hufrag₁)
    · rw [alookup_ainsert_ne _ _ hqp] at hr
      exact hqp (facts.sid_inj e.2 (mem_tablePtrs_ufrag hmem) p hplu r info hr hp hsid)
  · apply tableHasSession_eq_false
    intro e he r hr hsid
    simp only [integrityFailedPort] at he hr
    obtain ⟨hmem, hne⟩ := mem_aerase.mp he
    by_cases hqp : e.2 = p
    · obtain ⟨r₀, hr₀, haddr₀, -, -, -⟩ := facts.addr_key e hmem
      rw [hqp, hp] at hr₀
      cases hr₀
      exact hne haddr₀.symm
    · rw [alookup_ainsert_ne _ _ hqp] at hr
      exact hqp (facts.sid_inj e.2 (mem_tablePtrs_addr hmem) p hplu r info hr hp hsid)
  · apply tableHasSession_eq_false
    intro e he r hr hsid
    simp only [integrityFailedPort] at he hr
    obtain ⟨hmem, hne⟩ := mem_aerase.mp he
    by_cases hqp : e.2 = p
    · obtain ⟨r₀, hr₀, hsid₀, -, -⟩ := facts.sess_key e hmem
      rw [hqp, hp] at hr₀
      cases hr₀
      exact hne hsid₀.symm
    · rw [alookup_ainsert_ne _ _ hqp] at hr
      exact hqp (facts.sid_inj e.2 (mem_tablePtrs_sess hmem) p hplu r info hr hp hsid)

/-- C1 witness: the bound session of `exPort2` receiving a binding request
with a wrong integrity key. -/
theorem claim1_witness :
    Inv exPort2 ∧
    processStunBindingRequest exPort2 11 exSock exAddr ⟨some ("u", "v"), some "WRONG", []⟩ =
      some (integrityFailedPort exPort2 "u" 0 exInfo2, [(1, .Failed)], []) ∧
    tableHasSession (integrityFailedPort exPort2 "u" 0 exInfo2).heap
      (integrityFailedPort exPort2 "u" 0 exInfo2).user_mapping_table 1 = false ∧
    tableHasSession (integrityFailedPort exPort2 "u" 0 exInfo2).heap
      (integrityFailedPort exPort2 "u" 0 exInfo2).ice_port_info 1 = false ∧
    tableHasSession (integrityFailedPort exPort2 "u" 0 exInfo2).heap
      (integrityFailedPort exPort2 "u" 0 exInfo2).session_table 1 = false := by
  have h := claim1_integrity_failure_evicts exPort2 11 exSock exAddr
    ⟨some ("u", "v"), some "WRONG", []⟩ "u" "v" 0 exInfo2
    (by decide) (by decide) (by decide) (by decide) (by decide)
  exact ⟨by decide, h.1, h.2.2.1, h.2.2.2.1, h.2.2.2.2⟩

/-! ## Claim C2 — duplicate ufrag on add_session -/

/-- C2 counterexample: after two successive `addSession` calls with the same
local ufrag `"u"` (session ids 1 then 2), the ufrag table does NOT still map
`"u"` to the record created by the first call — the first session's record is
gone from the table and the second's is there: the second call is not
refused. -/
theorem claim2_counterexample :
    tableHasSession exPortDup.heap exPortDup.user_mapping_table 1 = false ∧
    tableHasSession exPortDup.heap exPortDup.user_mapping_table 2 = true :=
  ⟨by decide, by decide⟩

/-- C2 (amended): on a duplicate local ufrag, `AddSession` only fires a
(non-fatal) assertion and then overwrites: after the second call the ufrag
table maps the ufrag to the record created by the second call — new pointer,
the second session id, state `New` — and the first session's record is no
longer reachable by that ufrag. -/
theorem claim2_second_add_overwrites (s : IcePort) (session_id : Nat)
    (offer_sdp peer_sdp : SessionDescription) (expire_after_ms now : Nat) (p₀ : Nat)
    (_hdup : alookup offer_sdp.ice_ufrag s.user_mapping_table = some p₀) :
    alookup offer_sdp.ice_ufrag
        (addSession s session_id offer_sdp peer_sdp expire_after_ms now).port.user_mapping_table =
      some s.next_ptr ∧
    alookup s.next_ptr (addSession s session_id offer_sdp peer_sdp expire_after_ms now).port.heap =
      some { session_id := session_id, offer_sdp := offer_sdp, peer_sdp := peer_sdp,
             remote := none, address := ⟨"", 0⟩, state := .New,
             expire_time := now + expire_after_ms, expire_after_ms := expire_after_ms } := by
  exact ⟨alookup_ainsert_self _ _ _, alookup_ainsert_self _ _ _⟩

/-- C2 witness: the amended statement instantiated at the concrete duplicate
add of `exPortDup`. -/
theorem claim2_witness :
    alookup "u" exPort1.user_mapping_table = some 0 ∧
    (alookup "u" exPortDup.user_mapping_table = some 1 ∧
      alookup 1 exPortDup.heap =
        some { session_id := 2, offer_sdp := ⟨"u", "px"⟩, peer_sdp := ⟨"w", "py"⟩,
               remote := none, address := ⟨"", 0⟩, state := .New,
               expire_time := 30000, expire_after_ms := 30000 }) :=
  ⟨by decide, claim2_second_add_overwrites exPort1 2 ⟨"u", "px"⟩ ⟨"w", "py"⟩ 30000 0 0 (by decide)⟩

/-! ## Claim C3 — remove_session removes from all three tables -/

theorem findPendingScan_isSome {heap : List (Nat × IcePortInfo)} {session_id : Nat}
    {tbl : List (String × Nat)}
    (hlive : ∀ e ∈ tbl, (alookup e.2 heap).isSome = true) :
    (findPendingScan heap session_id tbl).isSome = true := by
  induction tbl with
  | nil => rfl
  | cons e t ih =>
    obtain ⟨u, p⟩ := e
    have hp := hlive (u, p) (List.mem_cons_self _ _)
    obtain ⟨info, hinfo⟩ := Option.isSome_iff_exists.mp hp
    simp only [findPendingScan, show alookup p heap = some info from hinfo]
    by_cases hsid : info.session_id = session_id
    · rw [if_pos hsid]; rfl
    · rw [if_neg hsid]
      have ih' := ih (fun e he => hlive e (List.mem_cons_of_mem _ he))
      cases hscan : findPendingScan heap session_id t with
      | none => rw [hscan] at ih'; cases ih'
      | some o => cases o <;> rfl

theorem findPendingScan_none_no_match {heap : List (Nat × IcePortInfo)} {session_id : Nat}
    {tbl : List (String × Nat)}
    (h : findPendingScan heap session_id tbl = some none) :
    ∀ e ∈ tbl, ∀ r, alookup e.2 heap = some r → r.session_id ≠ session_id := by
  induction tbl with
  | nil => intro e he; cases he
  | cons e₀ t ih =>
    obtain ⟨u, p⟩ := e₀
    intro e he r hr
    cases hinfo : alookup p heap with
    | none =>
      simp only [findPendingScan, hinfo] at h
      cases h
    | some info =>
      simp only [findPendingScan, hinfo] at h
      by_cases hsid : info.session_id = session_id
      · rw [if_pos hsid] at h; cases h
      · rw [if_neg hsid] at h
        cases hscan : findPendingScan heap session_id t with
        | none => rw [hscan] at h; cases h
        | some o =>
          rw [hscan] at h
          cases o with
          | none =>
            rcases List.mem_cons.mp he with he | he
            · cases he
              rw [hinfo] at hr
              cases hr
              exact hsid
            · exact ih hscan e he r hr
          | some t' => cases h

theorem findPendingScan_some_no_match {heap : List (Nat × IcePortInfo)} {session_id : Nat}
    {tbl tbl' : List (String × Nat)}
    (hnodup : (tbl.map Prod.fst).Nodup)
    (huniq : ∀ e₁ ∈ tbl, ∀ e₂ ∈ tbl, ∀ r₁ r₂, alookup e₁.2 heap = some r₁ →
      alookup e₂.2 heap = some r₂ → r₁.session_id = session_id →
      r₂.session_id = session_id → e₁ = e₂)
    (h : findPendingScan heap session_id tbl = some (some tbl')) :
    ∀ e ∈ tbl', ∀ r, alookup e.2 heap = some r → r.session_id ≠ session_id := by
  induction tbl generalizing tbl' with
  | nil => cases h
  | cons e₀ t ih =>
    obtain ⟨u, p⟩ := e₀
    cases hinfo : alookup p heap with
    | none =>
      simp only [findPendingScan, hinfo] at h
      cases h
    | some info =>
      simp only [findPendingScan, hinfo] at h
      by_cases hsid : info.session_id = session_id
      · rw [if_pos hsid] at h
        cases h
        intro e he r hr hesid
        have heq := huniq e (List.mem_cons_of_mem _ he) (u, p) (List.mem_cons_self _ _)
          r info hr hinfo hesid hsid
        rw [List.map_cons, List.nodup_cons] at hnodup
        exact hnodup.1 (List.mem_map.mpr ⟨e, he, congrArg Prod.fst heq⟩)
      · rw [if_neg hsid] at h
        cases hscan : findPendingScan heap session_id t with
        | none => rw [hscan] at h; cases h
        | some o =>
          rw [hscan] at h
          cases o with
          | none => cases h
          | some t'' =>
            cases h
            intro e he r hr hesid
            rcases List.mem_cons.mp he with he | he
            · cases he
              rw [hinfo] at hr
              cases hr
              exact hsid hesid
            · rw [List.map_cons, List.nodup_cons] at hnodup
              exact ih hnodup.2
                (fun e₁ h₁ e₂ h₂ => huniq e₁ (List.mem_cons_of_mem _ h₁)
                  e₂ (List.mem_cons_of_mem _ h₂))
                hscan e he r hr hesid

/-- After `RemoveSession(session_id)` returns, no record carrying that
session id remains in any of the three tables (`false` would also flag a
dangling pointer, which the invariant excludes). -/
def removeSessionClean (s : IcePort) (session_id : Nat) : Bool :=
  match removeSession s session_id with
  | none => false
  | some (_, s') =>
    !(tableHasSession s'.heap s'.user_mapping_table session_id) &&
    !(tableHasSession s'.heap s'.ice_port_info session_id) &&
    !(tableHasSession s'.heap s'.session_table session_id)

/-- C3: whether the session was bound (present in the session-id table) or
still pending (present only in the ufrag table), after
`RemoveSession(session_id)` returns no record with that session id is
present in the ufrag table, the address table, or the session-id table. -/
theorem claim3_remove_session_absent (s : IcePort) (session_id : Nat) (hInv : Inv s) :
    removeSessionClean s session_id = true := by
  have facts := invFacts_of_inv hInv
  cases hfind : alookup session_id s.session_table with
  | none =>
    -- pending path: the scan of the ufrag table removes the only match
    have hlive : ∀ e ∈ s.user_mapping_table, (alookup e.2 s.heap).isSome = true := by
      intro e he
      obtain ⟨r, hr, -⟩ := facts.ufrag_key e he
      rw [hr]; rfl
    have hsess_absent : tableHasSession s.heap s.session_table session_id = false := by
      apply tableHasSession_eq_false
      intro e he r hr hrsid
      obtain ⟨r₀, hr₀, hkey, -, -⟩ := facts.sess_key e he
      rw [hr] at hr₀
      cases hr₀
      have hse : session_id = e.1 := hrsid ▸ hkey
      have hee : e = (session_id, e.2) := by rw [hse]
      exact alookup_eq_none hfind e.2 (hee ▸ he)
    have haddr_absent : tableHasSession s.heap s.ice_port_info session_id = false := by
      apply tableHasSession_eq_false
      intro e he r hr hrsid
      obtain ⟨r₀, hr₀, -, -, -, hsess⟩ := facts.addr_key e he
      rw [hr] at hr₀
      cases hr₀
      rw [hrsid, hfind] at hsess
      cases hsess
    cases hscan : findPendingScan s.heap session_id s.user_mapping_table with
    | none =>
      have := @findPendingScan_isSome s.heap session_id s.user_mapping_table hlive
      rw [hscan] at this
      cases this
    | some o =>
      cases o with
      | none =>
        simp only [removeSessionClean, removeSession, hfind, hscan,
          Bool.and_eq_true, Bool.not_eq_true']
        exact ⟨⟨tableHasSession_eq_false (findPendingScan_none_no_match hscan),
          haddr_absent⟩, hsess_absent⟩
      | some tbl' =>
        simp only [removeSessionClean, removeSession, hfind, hscan,
          Bool.and_eq_true, Bool.not_eq_true']
        refine ⟨⟨?_, haddr_absent⟩, hsess_absent⟩
        apply tableHasSession_eq_false
        refine findPendingScan_some_no_match facts.ufrag_nodup ?_ hscan
        intro e₁ h₁ e₂ h₂ r₁ r₂ hr₁ hr₂ hs₁ hs₂
        have hptr : e₁.2 = e₂.2 :=
          facts.sid_inj e₁.2 (mem_tablePtrs_ufrag h₁) e₂.2 (mem_tablePtrs_ufrag h₂)
            r₁ r₂ hr₁ hr₂ (hs₁.trans hs₂.symm)
        obtain ⟨r₁', hr₁', huf₁⟩ := facts.ufrag_key e₁ h₁
        obtain ⟨r₂', hr₂', huf₂⟩ := facts.ufrag_key e₂ h₂
        rw [hr₁] at hr₁'
        cases hr₁'
        rw [hr₂] at hr₂'
        cases hr₂'
        have hr12 : r₁ = r₂ := by
          have h' := hr₁
          rw [hptr, hr₂] at h'
          exact (Option.some.inj h').symm
        exact Prod.ext_iff.mpr ⟨by rw [← huf₁, ← huf₂, hr12], hptr⟩
  | some p =>
    -- bound path: the record is erased from all three tables by its keys
    have hmem_sess : (session_id, p) ∈ s.session_table := alookup_mem hfind
    have hpsess : p ∈ tablePtrs s := mem_tablePtrs_sess hmem_sess
    obtain ⟨info, hinfo, hkey, -, -⟩ := facts.sess_key (session_id, p) hmem_sess
    have hinfo' : alookup p s.heap = some info := hinfo
    have hkey' : info.session_id = session_id := hkey
    simp only [removeSessionClean, removeSession, hfind, hinfo',
      Bool.and_eq_true, Bool.not_eq_true']
    refine ⟨⟨?_, ?_⟩, ?_⟩
    · apply tableHasSession_eq_false
      intro e he r hr hrsid
      obtain ⟨hmem, hne⟩ := mem_aerase.mp he
      obtain ⟨r₀, hr₀, huf⟩ := facts.ufrag_key e hmem
      rw [hr] at hr₀
      cases hr₀
      have hptr : e.2 = p :=
        facts.sid_inj e.2 (mem_tablePtrs_ufrag hmem) p hpsess r info hr hinfo'
          (by rw [hrsid, hkey'])
      rw [hptr, hinfo'] at hr
      cases hr
      exact hne huf.symm
    · apply tableHasSession_eq_false
      intro e he r hr hrsid
      obtain ⟨hmem, hne⟩ := mem_aerase.mp he
      obtain ⟨r₀, hr₀, haddr, -, -, -⟩ := facts.addr_key e hmem
      rw [hr] at hr₀
      cases hr₀
      have hptr : e.2 = p :=
        facts.sid_inj e.2 (mem_tablePtrs_addr hmem) p hpsess r info hr hinfo'
          (by rw [hrsid, hkey'])
      rw [hptr, hinfo'] at hr
      cases hr
      exact hne haddr.symm
    · apply tableHasSession_eq_false
      intro e he r hr hrsid
      obtain ⟨hmem, hne⟩ := mem_aerase.mp he
      obtain ⟨r₀, hr₀, hkey₀, -, -⟩ := facts.sess_key e hmem
      rw [hr] at hr₀
      cases hr₀
      exact hne (by rw [← hkey₀, hrsid])

/-- C3 witness: removing the bound session 1 of `exPort2`. -/
theorem claim3_witness : Inv exPort2 ∧ removeSessionClean exPort2 1 = true :=
  ⟨by decide, claim3_remove_session_absent exPort2 1 (by decide)⟩

/-! ## Claim C4 — expiration timer evicts timed-out sessions -/

/-- What the first phase of `CheckTimedoutItem` guarantees: it succeeds on a
live table; the heap keeps every record, at most flipping its state to
`Disconnected`; the surviving table is the non-expired part of the input;
every expired entry is dropped, disconnected, notified and pushed on the
delete list; and the delete list holds exactly pointers of expired
entries. -/
theorem checkTimedoutPhase1_spec (now : Nat) (tbl : List (String × Nat)) :
    ∀ heap : List (Nat × IcePortInfo),
    (∀ e ∈ tbl, (alookup e.2 heap).isSome = true) →
    ∃ res, checkTimedoutPhase1 now heap tbl = some res ∧
      (∀ q r, alookup q heap = some r → ∃ r', alookup q res.heap = some r' ∧
        (r' = r ∨ r' = { r with state := .Disconnected })) ∧
      (∀ q r', alookup q res.heap = some r' → ∃ r, alookup q heap = some r ∧
        (r' = r ∨ (r' = { r with state := .Disconnected } ∧ q ∈ res.del))) ∧
      res.table.Sublist tbl ∧
      (∀ e ∈ res.table, ∃ r, alookup e.2 heap = some r ∧ r.isExpired now = false) ∧
      (∀ e ∈ tbl, ∀ r, alookup e.2 heap = some r → r.isExpired now = true →
        e.2 ∈ res.del ∧ (r.session_id, IcePortConnectionState.Disconnected) ∈ res.events ∧
        alookup e.2 res.heap = some { r with state := .Disconnected }) ∧
      (∀ q ∈ res.del, ∃ u r, (u, q) ∈ tbl ∧ alookup q heap = some r ∧
        r.isExpired now = true) := by
  induction tbl with
  | nil =>
    intro heap _
    refine ⟨⟨heap, [], [], []⟩, rfl, ?_, ?_, List.Sublist.refl _, ?_, ?_, ?_⟩
    · exact fun q r h => ⟨r, h, Or.inl rfl⟩
    · exact fun q r' h => ⟨r', h, Or.inl rfl⟩
    · intro e he; cases he
    · intro e he; cases he
    · intro q hq; cases hq
  | cons e₀ t ih =>
    obtain ⟨u, p⟩ := e₀
    intro heap hlive
    have hp0 := hlive (u, p) (List.mem_cons_self _ _)
    obtain ⟨info, hinfo⟩ := Option.isSome_iff_exists.mp hp0
    have hinfo' : alookup p heap = some info := hinfo
    by_cases hexp : info.isExpired now = true
    · -- expired entry: disconnected, dropped from the table, on the delete list
      have hlive' : ∀ e ∈ t,
          (alookup e.2 (ainsert p { info with state := .Disconnected } heap)).isSome = true := by
        intro e he
        by_cases hq : e.2 = p
        · rw [hq, alookup_ainsert_self]; rfl
        · rw [alookup_ainsert_ne _ _ hq]; exact hlive e (List.mem_cons_of_mem _ he)
      obtain ⟨res, hres, ha, hb, hsub, hkept, hproc, hdel⟩ :=
        ih (ainsert p { info with state := .Disconnected } heap) hlive'
      refine ⟨⟨res.heap, res.table, p :: res.del,
        (info.session_id, .Disconnected) :: res.events⟩, ?_, ?_, ?_,
        hsub.trans (List.sublist_cons_self _ _), ?_, ?_, ?_⟩
      · simp only [checkTimedoutPhase1, hinfo']
        rw [if_pos hexp, hres]
      · intro q r hq
        by_cases hqp : q = p
        · subst hqp
          rw [hinfo'] at hq
          cases hq
          obtain ⟨r', hr', hrel⟩ := ha q { info with state := .Disconnected }
            (alookup_ainsert_self _ _ _)
          refine ⟨r', hr', Or.inr ?_⟩
          rcases hrel with h | h
          · exact h
          · exact h
        · have hl := alookup_ainsert_ne (k := p) { info with state := .Disconnected } heap hqp
          exact ha q r (hl.trans hq)
      · intro q r' hq
        obtain ⟨r₂, hr₂, hrel₂⟩ := hb q r' hq
        by_cases hqp : q = p
        · subst hqp
          rw [alookup_ainsert_self] at hr₂
          cases hr₂
          refine ⟨info, hinfo', Or.inr ⟨?_, List.mem_cons_self _ _⟩⟩
          rcases hrel₂ with h | ⟨h, -⟩
          · exact h
          · exact h
        · rw [alookup_ainsert_ne _ _ hqp] at hr₂
          rcases hrel₂ with h | ⟨h, hd⟩
          · exact ⟨r₂, hr₂, Or.inl h⟩
          · exact ⟨r₂, hr₂, Or.inr ⟨h, List.mem_cons_of_mem _ hd⟩⟩
      · intro e he
        obtain ⟨r, hr, hne⟩ := hkept e he
        by_cases hqp : e.2 = p
        · rw [hqp, alookup_ainsert_self] at hr
          cases hr
          have hne' : info.isExpired now = false := hne
          rw [hexp] at hne'
          cases hne'
        · rw [alookup_ainsert_ne _ _ hqp] at hr
          exact ⟨r, hr, hne⟩
      · intro e he r hr hrexp
        rcases List.mem_cons.mp he with he | he
        · cases he
          rw [hinfo'] at hr
          cases hr
          refine ⟨List.mem_cons_self _ _, List.mem_cons_self _ _, ?_⟩
          obtain ⟨r', hr', hrel⟩ := ha p { info with state := .Disconnected }
            (alookup_ainsert_self _ _ _)
          rcases hrel with h | h
          · exact h ▸ hr'
          · exact h ▸ hr'
        · by_cases hqp : e.2 = p
          · rw [hqp, hinfo'] at hr
            cases hr
            have hl : alookup e.2 (ainsert p { info with state := .Disconnected } heap) =
                some { info with state := .Disconnected } := by
              rw [hqp]; exact alookup_ainsert_self _ _ _
            obtain ⟨hd, hev, hlook⟩ := hproc e he { info with state := .Disconnected } hl hexp
            exact ⟨List.mem_cons_of_mem _ hd, List.mem_cons_of_mem _ hev, hlook⟩
          · have hl : alookup e.2 (ainsert p { info with state := .Disconnected } heap) =
                some r := by
              rw [alookup_ainsert_ne _ _ hqp]; exact hr
            obtain ⟨hd, hev, hlook⟩ := hproc e he r hl hrexp
            exact ⟨List.mem_cons_of_mem _ hd, List.mem_cons_of_mem _ hev, hlook⟩
      · intro q hq
        rcases List.mem_cons.mp hq with hq | hq
        · subst hq
          exact ⟨u, info, List.mem_cons_self _ _, hinfo', hexp⟩
        · obtain ⟨u', r', hmem, hlook, hexp'⟩ := hdel q hq
          by_cases hqp : q = p
          · subst hqp
            rw [alookup_ainsert_self] at hlook
            cases hlook
            exact ⟨u', info, List.mem_cons_of_mem _ hmem, hinfo', hexp⟩
          · rw [alookup_ainsert_ne _ _ hqp] at hlook
            exact ⟨u', r', List.mem_cons_of_mem _ hmem, hlook, hexp'⟩
    · -- live entry: kept unchanged
      obtain ⟨res, hres, ha, hb, hsub, hkept, hproc, hdel⟩ :=
        ih heap (fun e he => hlive e (List.mem_cons_of_mem _ he))
      have hexp' : info.isExpired now = false := by
        revert hexp; cases info.isExpired now <;> simp
      refine ⟨⟨res.heap, (u, p) :: res.table, res.del, res.events⟩, ?_, ha, hb,
        List.Sublist.cons₂ _ hsub, ?_, ?_, ?_⟩
      · simp only [checkTimedoutPhase1, hinfo']
        rw [if_neg hexp, hres]
      · intro e he
        rcases List.mem_cons.mp he with he | he
        · cases he
          exact ⟨info, hinfo', hexp'⟩
        · exact hkept e he
      · intro e he r hr hrexp
        rcases List.mem_cons.mp he with he | he
        · cases he
          rw [hinfo'] at hr
          cases hr
          exact absurd hrexp hexp
        · exact hproc e he r hr hrexp
      · intro q hq
        obtain ⟨u', r', hmem, hlook, he'⟩ := hdel q hq
        exact ⟨u', r', List.mem_cons_of_mem _ hmem, hlook, he'⟩

/-- What the second phase of `CheckTimedoutItem` guarantees: it succeeds on a
live delete list, only removes entries, and for every deleted record no
entry keyed by its address (resp. its session id) survives. -/
theorem checkTimedoutPhase2_spec (heap : List (Nat × IcePortInfo)) :
    ∀ (del : List Nat) (addr_tbl : List (SocketAddress × Nat)) (sess_tbl : List (Nat × Nat)),
    (∀ q ∈ del, (alookup q heap).isSome = true) →
    ∃ res, checkTimedoutPhase2 heap del addr_tbl sess_tbl = some res ∧
      res.1.Sublist addr_tbl ∧ res.2.Sublist sess_tbl ∧
      (∀ q ∈ del, ∀ r, alookup q heap = some r →
        (∀ e ∈ res.1, e.1 ≠ r.address) ∧ (∀ e ∈ res.2, e.1 ≠ r.session_id)) ∧
      (∀ e ∈ addr_tbl,
        (∀ q ∈ del, ∀ r, alookup q heap = some r → e.1 ≠ r.address) → e ∈ res.1) ∧
      (∀ e ∈ sess_tbl,
        (∀ q ∈ del, ∀ r, alookup q heap = some r → e.1 ≠ r.session_id) → e ∈ res.2) := by
  intro del
  induction del with
  | nil =>
    intro addr_tbl sess_tbl _
    refine ⟨(addr_tbl, sess_tbl), rfl, List.Sublist.refl _, List.Sublist.refl _, ?_, ?_, ?_⟩
    · intro q hq; cases hq
    · exact fun e he _ => he
    · exact fun e he _ => he
  | cons p t ih =>
    intro addr_tbl sess_tbl hlive
    have hp0 := hlive p (List.mem_cons_self _ _)
    obtain ⟨info, hinfo⟩ := Option.isSome_iff_exists.mp hp0
    obtain ⟨res, hres, hsubA, hsubS, hrem, hkeepA, hkeepS⟩ :=
      ih (aerase info.address addr_tbl) (aerase info.session_id sess_tbl)
        (fun q hq => hlive q (List.mem_cons_of_mem _ hq))
    refine ⟨res, ?_, hsubA.trans (aerase_sublist _ _), hsubS.trans (aerase_sublist _ _),
      ?_, ?_, ?_⟩
    · simp only [checkTimedoutPhase2, hinfo]
      exact hres
    · intro q hq r hr
      rcases List.mem_cons.mp hq with hq | hq
      · subst hq
        rw [hinfo] at hr
        cases hr
        constructor
        · intro e he
          exact (mem_aerase.mp (hsubA.subset he)).2
        · intro e he
          exact (mem_aerase.mp (hsubS.subset he)).2
      · exact hrem q hq r hr
    · intro e he hcond
      refine hkeepA e (mem_aerase.mpr ⟨he, ?_⟩)
        (fun q hq r hr => hcond q (List.mem_cons_of_mem _ hq) r hr)
      exact hcond p (List.mem_cons_self _ _) info hinfo
    · intro e he hcond
      refine hkeepS e (mem_aerase.mpr ⟨he, ?_⟩)
        (fun q hq r hr => hcond q (List.mem_cons_of_mem _ hq) r hr)
      exact hcond p (List.mem_cons_self _ _) info hinfo

/-- The two checks of claim C4 on a session record at pointer `p` carrying
`session_id`: after phase 1 (before the address/session-id erasures) the
record is `Disconnected`, gone from the ufrag table, on the delete list and
the notification was emitted; after the full task the session is absent from
all three tables. -/
def timedoutEvicted (s : IcePort) (now : Nat) (p session_id : Nat) : Bool :=
  match checkTimedoutPhase1 now s.heap s.user_mapping_table with
  | none => false
  | some mid =>
    (match alookup p mid.heap with
     | some r => decide (r.state = .Disconnected)
     | none => false) &&
    mid.table.all (fun e => decide (e.2 ≠ p)) &&
    decide (p ∈ mid.del) &&
    decide ((session_id, IcePortConnectionState.Disconnected) ∈ mid.events) &&
    (match checkTimedoutItem s now with
     | none => false
     | some res =>
       !(tableHasSession res.port.heap res.port.user_mapping_table session_id) &&
       !(tableHasSession res.port.heap res.port.ice_port_info session_id) &&
       !(tableHasSession res.port.heap res.port.session_table session_id))

/-- C4: a session whose deadline has passed when the periodic task runs is
transitioned to `Disconnected` and removed from the ufrag table in phase 1 —
before the removal from the address and session-id tables — and after the
task completes it is absent from all three tables. -/
theorem claim4_expired_session_evicted (s : IcePort) (now : Nat) (u : String)
    (p : Nat) (info : IcePortInfo)
    (hInv : Inv s)
    (hmem : (u, p) ∈ s.user_mapping_table)
    (hp : alookup p s.heap = some info)
    (hexp : info.isExpired now = true) :
    timedoutEvicted s now p info.session_id = true := by
  have facts := invFacts_of_inv hInv
  have hlive : ∀ e ∈ s.user_mapping_table, (alookup e.2 s.heap).isSome = true := by
    intro e he
    obtain ⟨r, hr, -⟩ := facts.ufrag_key e he
    rw [hr]; rfl
  obtain ⟨mid, hmid, ha, hb, hsub, hkept, hproc, hdel⟩ :=
    checkTimedoutPhase1_spec now s.user_mapping_table s.heap hlive
  obtain ⟨hd, hev, hlook⟩ := hproc (u, p) hmem info hp hexp
  have hlive2 : ∀ q ∈ mid.del, (alookup q mid.heap).isSome = true := by
    intro q hq
    obtain ⟨u', r', -, hlook', -⟩ := hdel q hq
    obtain ⟨r'', hr'', -⟩ := ha q r' hlook'
    rw [hr'']; rfl
  obtain ⟨res2, hres2, hsubA, hsubS, hrem, -, -⟩ :=
    checkTimedoutPhase2_spec mid.heap mid.del s.ice_port_info s.session_table hlive2
  obtain ⟨addrT, sessT⟩ := res2
  have hmidD : alookup p mid.heap = some { info with state := .Disconnected } := hlook
  have hDp := hrem p hd { info with state := .Disconnected } hmidD
  simp only [timedoutEvicted, hmid]
  simp only [Bool.and_eq_true, Bool.not_eq_true']
  refine ⟨⟨⟨⟨?_, ?_⟩, ?_⟩, ?_⟩, ?_⟩
  · rw [hmidD]
    exact decide_eq_true rfl
  · rw [List.all_eq_true]
    intro e he
    obtain ⟨r, hr, hne⟩ := hkept e he
    refine decide_eq_true ?_
    intro hqp
    rw [hqp, hp] at hr
    cases hr
    rw [hexp] at hne
    cases hne
  · exact decide_eq_true hd
  · exact decide_eq_true hev
  · simp only [checkTimedoutItem, hmid, hres2]
    simp only [Bool.and_eq_true, Bool.not_eq_true']
    refine ⟨⟨?_, ?_⟩, ?_⟩
    · -- ufrag table after the task: the expired session is gone
      apply tableHasSession_eq_false
      intro e he r' hr' hrsid
      obtain ⟨r, hr, hrel⟩ := hb e.2 r' hr'
      have hrsid' : r.session_id = info.session_id := by
        rcases hrel with h | ⟨h, -⟩ <;> rw [h] at hrsid <;> exact hrsid
      have hmem' : e ∈ s.user_mapping_table := hsub.subset he
      have hptr : e.2 = p :=
        facts.sid_inj e.2 (mem_tablePtrs_ufrag hmem') p (mem_tablePtrs_ufrag hmem)
          r info hr hp hrsid'
      obtain ⟨r₀, hr₀, hne₀⟩ := hkept e he
      rw [hptr, hp] at hr₀
      cases hr₀
      rw [hexp] at hne₀
      cases hne₀
    · -- address table after the task
      apply tableHasSession_eq_false
      intro e he r' hr' hrsid
      have hmem' : e ∈ s.ice_port_info := hsubA.subset he
      obtain ⟨r, hr, hrel⟩ := hb e.2 r' hr'
      have hrsid' : r.session_id = info.session_id := by
        rcases hrel with h | ⟨h, -⟩ <;> rw [h] at hrsid <;> exact hrsid
      have hptr : e.2 = p :=
        facts.sid_inj e.2 (mem_tablePtrs_addr hmem') p (mem_tablePtrs_ufrag hmem)
          r info hr hp hrsid'
      obtain ⟨r₀, hr₀, haddr₀, -, -, -⟩ := facts.addr_key e hmem'
      rw [hptr, hp] at hr₀
      cases hr₀
      exact hDp.1 e he haddr₀.symm
    · -- session-id table after the task
      apply tableHasSession_eq_false
      intro e he r' hr' hrsid
      have hmem' : e ∈ s.session_table := hsubS.subset he
      obtain ⟨r₀, hr₀, hkey₀, -, -⟩ := facts.sess_key e hmem'
      obtain ⟨r, hr, hrel⟩ := hb e.2 r' hr'
      have hrsid' : r.session_id = info.session_id := by
        rcases hrel with h | ⟨h, -⟩ <;> rw [h] at hrsid <;> exact hrsid
      rw [hr] at hr₀
      cases hr₀
      exact hDp.2 e he (by rw [← hkey₀, hrsid'])

/-- C4 witness: the bound session of `exPort2`, expired at a late enough
time. -/
theorem claim4_witness :
    Inv exPort2 ∧ (("u", 0) ∈ exPort2.user_mapping_table) ∧
    exInfo2.isExpired 99999999 = true ∧
    timedoutEvicted exPort2 99999999 0 1 = true :=
  ⟨by decide, by decide, by decide,
   claim4_expired_session_evicted exPort2 99999999 "u" 0 exInfo2
     (by decide) (by decide) (by decide) (by decide)⟩

/-! ## Claim C5 — integrity failure on a binding success-response -/

/-- C5: a binding success-response whose source address is in the address
table but whose integrity check fails is dropped without mutation: the
returned port state is exactly the input state (the session stays in every
table it occupied, its state field unchanged), no notification is emitted. -/
theorem claim5_response_integrity_failure_keeps_session (s : IcePort)
    (address : SocketAddress) (msg : StunBindingRequest) (p : Nat) (info : IcePortInfo)
    (haddr : alookup address s.ice_port_info = some p)
    (hp : alookup p s.heap = some info)
    (hbad : msg.checkIntegrity info.offer_sdp.ice_pwd = false) :
    processBindingResponse s address msg = some { ok := false, port := s, events := [] } := by
  simp [processBindingResponse, haddr, hp, hbad]

/-- C5 witness: the bound session of `exPort2` with a response whose
integrity key is wrong. -/
theorem claim5_witness :
    alookup exAddr exPort2.ice_port_info = some 0 ∧
    processBindingResponse exPort2 exAddr ⟨none, some "BAD", []⟩ =
      some { ok := false, port := exPort2, events := [] } :=
  ⟨by decide,
   claim5_response_integrity_failure_keeps_session exPort2 exAddr ⟨none, some "BAD", []⟩ 0
     exInfo2 (by decide) (by decide) (by decide)⟩

/-! ## Claim C6 — TCP (TURN relay) send path -/

/-- C6: the source's `Send` hands the bare caller payload to
`SendTo` even when the bound socket is TCP — the block under
`if (remote->GetType() == Tcp)` is empty, so no TURN channel-data header is
applied (and the wrapped form would differ from the bare payload). -/
theorem claim6_tcp_send_not_wrapped :
    send exPortTcp 1 [1, 2, 3] =
      some (true, [{ sock := exSockTcp, dest := exAddr, packet := .raw [1, 2, 3] }]) ∧
    turnChannelDataWrap 0x4000 [1, 2, 3] ≠ [1, 2, 3] :=
  ⟨by decide, by decide⟩

/-! ## Claim C7 — TURN channel-data decapsulation depth -/

/-- A channel-data datagram (channel 0x4000, 8 data bytes) whose inner
payload is itself a well-formed channel-data frame (channel 0x4000, 4 data
bytes). -/
def exNested : List Nat := [0x40, 0x00, 0x00, 0x08, 0x40, 0x00, 0x00, 0x04, 9, 9, 9, 9]

/-- C7 counterexample: on `exNested` the dispatcher decapsulates TWICE — the
inner payload, classifying as TURN channel data, is decapsulated again
(there is no depth guard in `ProcessChannelDataPacket`), refuting
"recursion depth is at most one level". -/
theorem claim7_counterexample :
    (processPacketRec .TURN_CHANNEL_DATA exNested).1 = [0x4000, 0x4000] ∧
    ¬ (processPacketRec .TURN_CHANNEL_DATA exNested).1.length ≤ 1 := by
  have h : (processPacketRec .TURN_CHANNEL_DATA exNested).1 = [0x4000, 0x4000] := by
    simp [processPacketRec, exNested, channelDataLoad, findPacketType]
  exact ⟨h, by rw [h]; decide⟩

/-- C7 (amended): the dispatcher redispatches the decapsulated payload and
recurses as long as the inner payload classifies as TURN channel data; the
recursion terminates because every decapsulation strips at least the 4-byte
header, so the number of decapsulations is bounded by a quarter of the
datagram length (but is not bounded by one). -/
theorem claim7_decapsulation_bounded (ty : PacketType) (data : List Nat) :
    4 * (processPacketRec ty data).1.length ≤ data.length := by
  induction ty, data using processPacketRec.induct with
  | case1 data h =>
    rw [processPacketRec]
    split
    · simp
    · next msg heq => rw [h] at heq; cases heq
  | case2 data msg h ih =>
    have hle := channelDataLoad_payload_le h
    rw [processPacketRec]
    split
    · next heq => rw [h] at heq; cases heq
    · next msg' heq =>
      rw [h] at heq
      cases heq
      simp only [List.length_cons]
      omega
  | case3 ty data h =>
    cases ty <;> simp_all <;> rw [processPacketRec] <;> simp

/-! ## Claim C8 — send on an unbound session -/

/-- C8: `Send` with a session id absent from the session-id table returns
`false` without raising and hands no bytes to any socket. -/
theorem claim8_send_without_binding (s : IcePort) (session_id : Nat) (data : List Nat)
    (habs : alookup session_id s.session_table = none) :
    send s session_id data = some (false, []) := by
  rw [send, habs]

/-- C8 witness: sending on session 3, which was never bound. -/
theorem claim8_witness :
    alookup 3 exPort2.session_table = none ∧ send exPort2 3 [9, 9] = some (false, []) :=
  ⟨by decide, claim8_send_without_binding exPort2 3 [9, 9] (by decide)⟩

/-! ## Claim C9 — create_turn_server return value -/

/-- C9: evaluated on a successful creation (the physical port is created,
the observer attached, the port appended to the list), the source's
`CreateTurnServer` still returns `false` — contradicting the spec's
"success returns true". -/
theorem claim9_success_returns_false (p : PhysicalPort) (l : List PhysicalPort) :
    createTurnServer (some p) l = (false, l ++ [p]) := rfl

/-! ## Remaining invariant preservation lemmas and claim C10 -/

theorem findPendingScan_some_sublist {heap : List (Nat × IcePortInfo)} {session_id : Nat}
    {tbl tbl' : List (String × Nat)}
    (h : findPendingScan heap session_id tbl = some (some tbl')) : tbl'.Sublist tbl := by
  induction tbl generalizing tbl' with
  | nil => cases h
  | cons e₀ t ih =>
    obtain ⟨u, p⟩ := e₀
    cases hinfo : alookup p heap with
    | none =>
      simp only [findPendingScan, hinfo] at h
      cases h
    | some info =>
      simp only [findPendingScan, hinfo] at h
      by_cases hsid : info.session_id = session_id
      · rw [if_pos hsid] at h
        cases h
        exact List.sublist_cons_self _ _
      · rw [if_neg hsid] at h
        cases hscan : findPendingScan heap session_id t with
        | none => rw [hscan] at h; cases h
        | some o =>
          rw [hscan] at h
          cases o with
          | none => cases h
          | some t'' =>
            cases h
            exact List.Sublist.cons₂ _ (ih hscan)

/-- `RemoveSession` preserves the registry invariant. -/
theorem invFacts_removeSession (s : IcePort) (session_id : Nat) (b : Bool) (s' : IcePort)
    (facts : InvFacts s) (heq : removeSession s session_id = some (b, s')) :
    InvFacts s' := by
  cases hfind : alookup session_id s.session_table with
  | none =>
    cases hscan : findPendingScan s.heap session_id s.user_mapping_table with
    | none =>
      simp only [removeSession, hfind, hscan] at heq
      cases heq
    | some o =>
      cases o with
      | none =>
        simp only [removeSession, hfind, hscan, Option.some.injEq, Prod.mk.injEq] at heq
        obtain ⟨rfl, rfl⟩ := heq
        exact facts
      | some tbl' =>
        simp only [removeSession, hfind, hscan, Option.some.injEq, Prod.mk.injEq] at heq
        obtain ⟨rfl, rfl⟩ := heq
        have hsub := findPendingScan_some_sublist hscan
        refine ⟨?_, ?_, ?_, ?_, ?_, ?_, ?_, ?_, ?_⟩
        · exact fun e he => facts.ufrag_key e (hsub.subset he)
        · exact fun e he => facts.addr_key e he
        · exact fun e he => facts.sess_key e he
        · exact List.Nodup.sublist (List.Sublist.map _ hsub) facts.ufrag_nodup
        · exact facts.addr_nodup
        · exact facts.sess_nodup
        · refine @sid_inj_transfer s _ ?_ (fun q r' hr' => ⟨r', hr', rfl⟩) facts.sid_inj
          intro q hq
          rcases tablePtrs_cases hq with ⟨e, he, hq'⟩ | ⟨e, he, hq'⟩ | ⟨e, he, hq'⟩
          · exact hq' ▸ mem_tablePtrs_ufrag (hsub.subset he)
          · exact hq' ▸ mem_tablePtrs_addr he
          · exact hq' ▸ mem_tablePtrs_sess he
        · exact facts.fresh
        · exact fun e he => facts.ufrag_bound e (hsub.subset he)
  | some p =>
    cases hp : alookup p s.heap with
    | none =>
      simp only [removeSession, hfind, hp] at heq
      cases heq
    | some info =>
      simp only [removeSession, hfind, hp, Option.some.injEq, Prod.mk.injEq] at heq
      obtain ⟨rfl, rfl⟩ := heq
      have hmem_sess : (session_id, p) ∈ s.session_table := alookup_mem hfind
      have hpsess := mem_tablePtrs_sess hmem_sess
      obtain ⟨r₀, hr₀, hkey₀, -, -⟩ := facts.sess_key (session_id, p) hmem_sess
      have hr₀' : alookup p s.heap = some r₀ := hr₀
      rw [hp] at hr₀'
      cases hr₀'
      have hkey' : info.session_id = session_id := hkey₀
      refine ⟨?_, ?_, ?_, ?_, ?_, ?_, ?_, ?_, ?_⟩
      · exact fun e he => facts.ufrag_key e (mem_aerase.mp he).1
      · intro e he
        obtain ⟨hmem, hne⟩ := mem_aerase.mp he
        obtain ⟨r, hr, hkeyA, hst, hrem, hsess⟩ := facts.addr_key e hmem
        refine ⟨r, hr, hkeyA, hst, hrem, ?_⟩
        have hrs : r.session_id ≠ session_id := by
          intro hrs
          have hptr : e.2 = p :=
            facts.sid_inj e.2 (mem_tablePtrs_addr hmem) p hpsess r info hr hp
              (by rw [hrs, hkey'])
          rw [hptr, hp] at hr
          cases hr
          exact hne hkeyA.symm
        rw [alookup_aerase_ne _ hrs]
        exact hsess
      · exact fun e he => facts.sess_key e (mem_aerase.mp he).1
      · exact keys_nodup_aerase facts.ufrag_nodup
      · exact keys_nodup_aerase facts.addr_nodup
      · exact keys_nodup_aerase facts.sess_nodup
      · refine @sid_inj_transfer s _ ?_ (fun q r' hr' => ⟨r', hr', rfl⟩) facts.sid_inj
        intro q hq
        rcases tablePtrs_cases hq with ⟨e, he, hq'⟩ | ⟨e, he, hq'⟩ | ⟨e, he, hq'⟩
        · exact hq' ▸ mem_tablePtrs_ufrag (mem_aerase.mp he).1
        · exact hq' ▸ mem_tablePtrs_addr (mem_aerase.mp he).1
        · exact hq' ▸ mem_tablePtrs_sess (mem_aerase.mp he).1
      · exact facts.fresh
      · intro e he
        obtain ⟨hmem, hne⟩ := mem_aerase.mp he
        obtain ⟨r, hr, hdisj⟩ := facts.ufrag_bound e hmem
        refine ⟨r, hr, ?_⟩
        rcases hdisj with hnew | ⟨hrem, hsess⟩
        · exact Or.inl hnew
        · refine Or.inr ⟨hrem, ?_⟩
          have hrs : r.session_id ≠ session_id := by
            intro hrs
            have hptr : e.2 = p :=
              facts.sid_inj e.2 (mem_tablePtrs_ufrag hmem) p hpsess r info hr hp
                (by rw [hrs, hkey'])
            obtain ⟨r₁, hr₁, huf₁⟩ := facts.ufrag_key e hmem
            rw [hptr, hp] at hr₁
            cases hr₁
            exact hne huf₁.symm
          rw [alookup_aerase_ne _ hrs]
          exact hsess


/-- Refreshing a registered record's binding time preserves the registry
invariant (the `UpdateBindingTime` step of `ProcessBindingRequest`). -/
theorem invFacts_expireUpdate (s : IcePort) (p : Nat) (info : IcePortInfo) (t : Nat)
    (facts : InvFacts s) (hp : alookup p s.heap = some info) :
    InvFacts { s with heap := ainsert p { info with expire_time := t } s.heap } := by
  refine ⟨?_, ?_, ?_, facts.ufrag_nodup, facts.addr_nodup, facts.sess_nodup, ?_, ?_, ?_⟩
  · intro e he
    obtain ⟨rq, hrq, huf⟩ := facts.ufrag_key e he
    by_cases hqp : e.2 = p
    · rw [hqp, hp] at hrq
      cases hrq
      refine ⟨{ info with expire_time := t }, ?_, huf⟩
      show alookup e.2 (ainsert p { info with expire_time := t } s.heap) =
        some { info with expire_time := t }
      rw [hqp]
      exact alookup_ainsert_self _ _ _
    · refine ⟨rq, ?_, huf⟩
      show alookup e.2 (ainsert p { info with expire_time := t } s.heap) = some rq
      rw [alookup_ainsert_ne _ _ hqp]
      exact hrq
  · intro e he
    obtain ⟨rq, hrq, hkey, hst, hrem, hsess⟩ := facts.addr_key e he
    by_cases hqp : e.2 = p
    · rw [hqp, hp] at hrq
      cases hrq
      refine ⟨{ info with expire_time := t }, ?_, hkey, hst, hrem, hsess⟩
      show alookup e.2 (ainsert p { info with expire_time := t } s.heap) =
        some { info with expire_time := t }
      rw [hqp]
      exact alookup_ainsert_self _ _ _
    · refine ⟨rq, ?_, hkey, hst, hrem, hsess⟩
      show alookup e.2 (ainsert p { info with expire_time := t } s.heap) = some rq
      rw [alookup_ainsert_ne _ _ hqp]
      exact hrq
  · intro e he
    obtain ⟨rq, hrq, hkey, hst, hrem⟩ := facts.sess_key e he
    by_cases hqp : e.2 = p
    · rw [hqp, hp] at hrq
      cases hrq
      refine ⟨{ info with expire_time := t }, ?_, hkey, hst, hrem⟩
      show alookup e.2 (ainsert p { info with expire_time := t } s.heap) =
        some { info with expire_time := t }
      rw [hqp]
      exact alookup_ainsert_self _ _ _
    · refine ⟨rq, ?_, hkey, hst, hrem⟩
      show alookup e.2 (ainsert p { info with expire_time := t } s.heap) = some rq
      rw [alookup_ainsert_ne _ _ hqp]
      exact hrq
  · refine @sid_inj_transfer s _ (fun q hq => hq) ?_ facts.sid_inj
    intro q r' hr'
    have hr'' : alookup q (ainsert p { info with expire_time := t } s.heap) = some r' := hr'
    by_cases hqp : q = p
    · subst hqp
      rw [alookup_ainsert_self] at hr''
      cases hr''
      exact ⟨info, hp, rfl⟩
    · rw [alookup_ainsert_ne _ _ hqp] at hr''
      exact ⟨r', hr'', rfl⟩
  · intro q hq
    have hq' : (alookup q (ainsert p { info with expire_time := t } s.heap)).isSome =
      true := hq
    by_cases hqp : q = p
    · subst hqp
      exact facts.fresh q (by rw [hp]; rfl)
    · rw [alookup_ainsert_ne _ _ hqp] at hq'
      exact facts.fresh q hq'
  · intro e he
    obtain ⟨rq, hrq, hdisj⟩ := facts.ufrag_bound e he
    by_cases hqp : e.2 = p
    · rw [hqp, hp] at hrq
      cases hrq
      refine ⟨{ info with expire_time := t }, ?_, hdisj⟩
      show alookup e.2 (ainsert p { info with expire_time := t } s.heap) =
        some { info with expire_time := t }
      rw [hqp]
      exact alookup_ainsert_self _ _ _
    · refine ⟨rq, ?_, hdisj⟩
      show alookup e.2 (ainsert p { info with expire_time := t } s.heap) = some rq
      rw [alookup_ainsert_ne _ _ hqp]
      exact hrq

/-- The integrity-failure branch of `ProcessBindingRequest` preserves the
registry invariant. -/
theorem invFacts_integrityFailed (s : IcePort) (lu : String) (p : Nat) (info : IcePortInfo)
    (facts : InvFacts s)
    (hlu : alookup lu s.user_mapping_table = some p)
    (hp : alookup p s.heap = some info) :
    InvFacts { s with
               heap := ainsert p { info with state := .Failed } s.heap
               user_mapping_table := aerase lu s.user_mapping_table
               ice_port_info := aerase info.address s.ice_port_info
               session_table := aerase info.session_id s.session_table } := by
  have hmem_lu : (lu, p) ∈ s.user_mapping_table := alookup_mem hlu
  have hplu : p ∈ tablePtrs s := mem_tablePtrs_ufrag hmem_lu
  obtain ⟨r₀, hr₀, hufrag₀⟩ := facts.ufrag_key (lu, p) hmem_lu
  have hr₀' : alookup p s.heap = some r₀ := hr₀
  rw [hp] at hr₀'
  cases hr₀'
  have hufrag : info.offer_sdp.ice_ufrag = lu := hufrag₀
  have hufrag_ne_p : ∀ e, e ∈ s.user_mapping_table → e.1 ≠ lu → e.2 ≠ p := by
    intro e he hne hqp
    obtain ⟨rq, hrq, huf⟩ := facts.ufrag_key e he
    rw [hqp, hp] at hrq
    cases hrq
    exact hne (huf ▸ hufrag)
  refine ⟨?_, ?_, ?_, keys_nodup_aerase facts.ufrag_nodup,
    keys_nodup_aerase facts.addr_nodup, keys_nodup_aerase facts.sess_nodup, ?_, ?_, ?_⟩
  · intro e he
    obtain ⟨hmem, hne⟩ := mem_aerase.mp he
    obtain ⟨rq, hrq, huf⟩ := facts.ufrag_key e hmem
    have hqp : e.2 ≠ p := hufrag_ne_p e hmem hne
    refine ⟨rq, ?_, huf⟩
    show alookup e.2 (ainsert p { info with state := .Failed } s.heap) = some rq
    rw [alookup_ainsert_ne _ _ hqp]
    exact hrq
  · intro e he
    obtain ⟨hmem, hne⟩ := mem_aerase.mp he
    obtain ⟨rq, hrq, hkey, hst, hrem, hsess⟩ := facts.addr_key e hmem
    have hqp : e.2 ≠ p := by
      intro hqp
      rw [hqp, hp] at hrq
      cases hrq
      exact hne hkey.symm
    refine ⟨rq, ?_, hkey, hst, hrem, ?_⟩
    · show alookup e.2 (ainsert p { info with state := .Failed } s.heap) = some rq
      rw [alookup_ainsert_ne _ _ hqp]
      exact hrq
    · have hsid : rq.session_id ≠ info.session_id := by
        intro hsid
        exact hqp (facts.sid_inj e.2 (mem_tablePtrs_addr hmem) p hplu rq info hrq hp hsid)
      show alookup rq.session_id (aerase info.session_id s.session_table) = some e.2
      rw [alookup_aerase_ne _ hsid]
      exact hsess
  · intro e he
    obtain ⟨hmem, hne⟩ := mem_aerase.mp he
    obtain ⟨rq, hrq, hkey, hst, hrem⟩ := facts.sess_key e hmem
    have hqp : e.2 ≠ p := by
      intro hqp
      rw [hqp, hp] at hrq
      cases hrq
      exact hne hkey.symm
    refine ⟨rq, ?_, hkey, hst, hrem⟩
    show alookup e.2 (ainsert p { info with state := .Failed } s.heap) = some rq
    rw [alookup_ainsert_ne _ _ hqp]
    exact hrq
  · refine @sid_inj_transfer s _ ?_ ?_ facts.sid_inj
    · intro q hq
      rcases tablePtrs_cases hq with ⟨e, he, hq'⟩ | ⟨e, he, hq'⟩ | ⟨e, he, hq'⟩
      · exact hq' ▸ mem_tablePtrs_ufrag (mem_aerase.mp he).1
      · exact hq' ▸ mem_tablePtrs_addr (mem_aerase.mp he).1
      · exact hq' ▸ mem_tablePtrs_sess (mem_aerase.mp he).1
    · intro q r' hr'
      have hr'' : alookup q (ainsert p { info with state := .Failed } s.heap) = some r' := hr'
      by_cases hqp : q = p
      · subst hqp
        rw [alookup_ainsert_self] at hr''
        cases hr''
        exact ⟨info, hp, rfl⟩
      · rw [alookup_ainsert_ne _ _ hqp] at hr''
        exact ⟨r', hr'', rfl⟩
  · intro q hq
    have hq' : (alookup q (ainsert p { info with state := .Failed } s.heap)).isSome =
      true := hq
    by_cases hqp : q = p
    · subst hqp
      exact facts.fresh q (by rw [hp]; rfl)
    · rw [alookup_ainsert_ne _ _ hqp] at hq'
      exact facts.fresh q hq'
  · intro e he
    obtain ⟨hmem, hne⟩ := mem_aerase.mp he
    obtain ⟨rq, hrq, hdisj⟩ := facts.ufrag_bound e hmem
    have hqp : e.2 ≠ p := hufrag_ne_p e hmem hne
    refine ⟨rq, ?_, ?_⟩
    · show alookup e.2 (ainsert p { info with state := .Failed } s.heap) = some rq
      rw [alookup_ainsert_ne _ _ hqp]
      exact hrq
    · rcases hdisj with hnew | ⟨hrem, hsess⟩
      · exact Or.inl hnew
      · refine Or.inr ⟨hrem, ?_⟩
        have hsid : rq.session_id ≠ info.session_id := by
          intro hsid
          exact hqp (facts.sid_inj e.2 (mem_tablePtrs_ufrag hmem) p hplu rq info hrq hp hsid)
        show alookup rq.session_id (aerase info.session_id s.session_table) = some e.2
        rw [alookup_aerase_ne _ hsid]
        exact hsess

/-- The record produced by the `New → Checking` branch of
`ProcessBindingRequest`: binding time refreshed, state `Checking`, remote
socket and address captured. -/
def boundRecord (info : IcePortInfo) (remote : Socket) (address : SocketAddress)
    (t : Nat) : IcePortInfo :=
  { info with
    expire_time := t
    state := .Checking
    remote := some remote
    address := address }

/-- The `New → Checking` branch of `ProcessBindingRequest` (capture the
remote socket and address, insert into the address and session-id tables)
preserves the registry invariant. -/
theorem invFacts_bindSession (s : IcePort) (lu : String) (p : Nat) (info : IcePortInfo)
    (remote : Socket) (address : SocketAddress) (t : Nat)
    (facts : InvFacts s)
    (hlu : alookup lu s.user_mapping_table = some p)
    (hp : alookup p s.heap = some info)
    (hnew : info.state = .New) :
    InvFacts { s with
               heap := ainsert p (boundRecord info remote address t) s.heap
               ice_port_info := ainsert address p s.ice_port_info
               session_table := ainsert info.session_id p s.session_table } := by
  have hmem_lu : (lu, p) ∈ s.user_mapping_table := alookup_mem hlu
  have hplu : p ∈ tablePtrs s := mem_tablePtrs_ufrag hmem_lu
  have hpnotaddr : ∀ e ∈ s.ice_port_info, e.2 ≠ p := by
    intro e he hqp
    obtain ⟨rq, hrq, -, hst, -, -⟩ := facts.addr_key e he
    rw [hqp, hp] at hrq
    cases hrq
    exact hst hnew
  have hpnotsess : ∀ e ∈ s.session_table, e.2 ≠ p := by
    intro e he hqp
    obtain ⟨rq, hrq, -, hst, -⟩ := facts.sess_key e he
    rw [hqp, hp] at hrq
    cases hrq
    exact hst hnew
  refine ⟨?_, ?_, ?_, facts.ufrag_nodup, keys_nodup_ainsert facts.addr_nodup,
    keys_nodup_ainsert facts.sess_nodup, ?_, ?_, ?_⟩
  · intro e he
    obtain ⟨rq, hrq, huf⟩ := facts.ufrag_key e he
    by_cases hqp : e.2 = p
    · rw [hqp, hp] at hrq
      cases hrq
      refine ⟨boundRecord info remote address t, ?_, huf⟩
      show alookup e.2 (ainsert p (boundRecord info remote address t) s.heap) = some _
      rw [hqp]
      exact alookup_ainsert_self _ _ _
    · refine ⟨rq, ?_, huf⟩
      show alookup e.2 (ainsert p (boundRecord info remote address t) s.heap) = some rq
      rw [alookup_ainsert_ne _ _ hqp]
      exact hrq
  · intro e he
    rcases mem_ainsert.mp he with he | ⟨he, hne⟩
    · subst he
      refine ⟨boundRecord info remote address t, ?_, rfl, ?_, rfl, ?_⟩
      · show alookup p (ainsert p (boundRecord info remote address t) s.heap) = some _
        exact alookup_ainsert_self _ _ _
      · intro hc
        cases hc
      · show alookup info.session_id (ainsert info.session_id p s.session_table) = some p
        exact alookup_ainsert_self _ _ _
    · obtain ⟨rq, hrq, hkey, hst, hrem, hsess⟩ := facts.addr_key e he
      have hqp : e.2 ≠ p := hpnotaddr e he
      have hsidne : rq.session_id ≠ info.session_id := by
        intro h
        exact hqp (facts.sid_inj e.2 (mem_tablePtrs_addr he) p hplu rq info hrq hp h)
      refine ⟨rq, ?_, hkey, hst, hrem, ?_⟩
      · show alookup e.2 (ainsert p (boundRecord info remote address t) s.heap) = some rq
        rw [alookup_ainsert_ne _ _ hqp]
        exact hrq
      · show alookup rq.session_id (ainsert info.session_id p s.session_table) = some e.2
        rw [alookup_ainsert_ne _ _ hsidne]
        exact hsess
  · intro e he
    rcases mem_ainsert.mp he with he | ⟨he, hne⟩
    · subst he
      refine ⟨boundRecord info remote address t, ?_, rfl, ?_, rfl⟩
      · show alookup p (ainsert p (boundRecord info remote address t) s.heap) = some _
        exact alookup_ainsert_self _ _ _
      · intro hc
        cases hc
    · obtain ⟨rq, hrq, hkey, hst, hrem⟩ := facts.sess_key e he
      have hqp : e.2 ≠ p := hpnotsess e he
      refine ⟨rq, ?_, hkey, hst, hrem⟩
      show alookup e.2 (ainsert p (boundRecord info remote address t) s.heap) = some rq
      rw [alookup_ainsert_ne _ _ hqp]
      exact hrq
  · refine @sid_inj_transfer s _ ?_ ?_ facts.sid_inj
    · intro q hq
      rcases tablePtrs_cases hq with ⟨e, he, hq'⟩ | ⟨e, he, hq'⟩ | ⟨e, he, hq'⟩
      · exact hq' ▸ mem_tablePtrs_ufrag he
      · rcases mem_ainsert.mp he with he | ⟨he, -⟩
        · subst he
          exact hq' ▸ hplu
        · exact hq' ▸ mem_tablePtrs_addr he
      · rcases mem_ainsert.mp he with he | ⟨he, -⟩
        · subst he
          exact hq' ▸ hplu
        · exact hq' ▸ mem_tablePtrs_sess he
    · intro q r' hr'
      have hr'' : alookup q (ainsert p (boundRecord info remote address t) s.heap) =
        some r' := hr'
      by_cases hqp : q = p
      · subst hqp
        rw [alookup_ainsert_self] at hr''
        cases hr''
        exact ⟨info, hp, rfl⟩
      · rw [alookup_ainsert_ne _ _ hqp] at hr''
        exact ⟨r', hr'', rfl⟩
  · intro q hq
    have hq' : (alookup q (ainsert p (boundRecord info remote address t) s.heap)).isSome =
      true := hq
    by_cases hqp : q = p
    · subst hqp
      exact facts.fresh q (by rw [hp]; rfl)
    · rw [alookup_ainsert_ne _ _ hqp] at hq'
      exact facts.fresh q hq'
  · intro e he
    by_cases hqp : e.2 = p
    · refine ⟨boundRecord info remote address t, ?_, Or.inr ⟨rfl, ?_⟩⟩
      · show alookup e.2 (ainsert p (boundRecord info remote address t) s.heap) = some _
        rw [hqp]
        exact alookup_ainsert_self _ _ _
      · show alookup info.session_id (ainsert info.session_id p s.session_table) = some e.2
        rw [hqp]
        exact alookup_ainsert_self _ _ _
    · obtain ⟨rq, hrq, hdisj⟩ := facts.ufrag_bound e he
      have hrq' : alookup e.2 s.heap = some rq := hrq
      refine ⟨rq, ?_, ?_⟩
      · show alookup e.2 (ainsert p (boundRecord info remote address t) s.heap) = some rq
        rw [alookup_ainsert_ne _ _ hqp]
        exact hrq'
      · rcases hdisj with hnew' | ⟨hrem, hsess⟩
        · exact Or.inl hnew'
        · refine Or.inr ⟨hrem, ?_⟩
          have hsidne : rq.session_id ≠ info.session_id := by
            intro h
            exact hqp (facts.sid_inj e.2 (mem_tablePtrs_ufrag he) p hplu rq info hrq' hp h)
          show alookup rq.session_id (ainsert info.session_id p s.session_table) = some e.2
          rw [alookup_ainsert_ne _ _ hsidne]
          exact hsess

/-- `ProcessBindingRequest` preserves the registry invariant. -/
theorem invFacts_processBindingRequest (s : IcePort) (now : Nat) (remote : Socket)
    (address : SocketAddress) (msg : StunBindingRequest) (r : ReqResult)
    (facts : InvFacts s) (heq : processBindingRequest s now remote address msg = some r) :
    InvFacts r.port := by
  cases hu : msg.username with
  | none =>
    simp only [processBindingRequest, hu, Option.some.injEq] at heq
    rw [← heq]
    exact facts
  | some uu =>
    obtain ⟨lu, ru⟩ := uu
    cases hlu : alookup lu s.user_mapping_table with
    | none =>
      simp only [processBindingRequest, hu, hlu, Option.some.injEq] at heq
      rw [← heq]
      exact facts
    | some p =>
      cases hp : alookup p s.heap with
      | none =>
        simp only [processBindingRequest, hu, hlu, hp] at heq
        cases heq
      | some info =>
        have hmem_lu : (lu, p) ∈ s.user_mapping_table := alookup_mem hlu
        have hplu : p ∈ tablePtrs s := mem_tablePtrs_ufrag hmem_lu
        simp only [processBindingRequest, hu, hlu, hp] at heq
        by_cases hint : msg.checkIntegrity info.offer_sdp.ice_pwd = true
        · rw [if_pos hint] at heq
          by_cases hnew : info.state = .New
          · rw [if_pos hnew] at heq
            have hnone : alookup info.session_id s.session_table = none := by
              cases hfind : alookup info.session_id s.session_table with
              | none => rfl
              | some q =>
                exfalso
                have hmemq : (info.session_id, q) ∈ s.session_table := alookup_mem hfind
                obtain ⟨rq, hrq, hkeyq, hstq, -⟩ := facts.sess_key (info.session_id, q) hmemq
                have hqp : q = p :=
                  facts.sid_inj q (mem_tablePtrs_sess hmemq) p hplu rq info hrq hp hkeyq
                rw [hqp, hp] at hrq
                cases hrq
                exact hstq hnew
            simp only [sendBindingResponse, hnone, Option.isSome_none,
              Bool.false_eq_true, if_false, Option.some.injEq] at heq
            rw [← heq]
            exact invFacts_bindSession s lu p info remote address
              (now + info.expire_after_ms) facts hlu hp hnew
          · rw [if_neg hnew] at heq
            have hsome : (alookup info.session_id s.session_table).isSome = true := by
              obtain ⟨rb, hrb, hdisj⟩ := facts.ufrag_bound (lu, p) hmem_lu
              have hrb' : alookup p s.heap = some rb := hrb
              rw [hp] at hrb'
              cases hrb'
              rcases hdisj with h | ⟨-, hsess⟩
              · exact absurd h hnew
              · rw [hsess]; rfl
            simp only [sendBindingResponse] at heq
            rw [if_pos hsome, Option.some.injEq] at heq
            rw [← heq]
            exact invFacts_expireUpdate s p info (now + info.expire_after_ms) facts hp
        · rw [if_neg hint, Option.some.injEq] at heq
          rw [← heq]
          exact invFacts_integrityFailed s lu p info facts hlu hp

/-- `CheckTimedoutItem` preserves the registry invariant. -/
theorem invFacts_checkTimedoutItem (s : IcePort) (now : Nat) (res : TimeoutResult)
    (facts : InvFacts s) (heq : checkTimedoutItem s now = some res) :
    InvFacts res.port := by
  have hlive : ∀ e ∈ s.user_mapping_table, (alookup e.2 s.heap).isSome = true := by
    intro e he
    obtain ⟨r, hr, -⟩ := facts.ufrag_key e he
    rw [hr]; rfl
  obtain ⟨mid, hmid, ha, hb, hsub, hkept, hproc, hdel⟩ :=
    checkTimedoutPhase1_spec now s.user_mapping_table s.heap hlive
  have hlive2 : ∀ q ∈ mid.del, (alookup q mid.heap).isSome = true := by
    intro q hq
    obtain ⟨u', r', -, hlook', -⟩ := hdel q hq
    obtain ⟨r'', hr'', -⟩ := ha q r' hlook'
    rw [hr'']; rfl
  obtain ⟨res2, hres2, hsubA, hsubS, hrem, hkeepA, hkeepS⟩ :=
    checkTimedoutPhase2_spec mid.heap mid.del s.ice_port_info s.session_table hlive2
  obtain ⟨addrT, sessT⟩ := res2
  simp only [checkTimedoutItem, hmid, hres2, Option.some.injEq] at heq
  rw [← heq]
  -- records with a session id equal to a deleted record's id can only be the
  -- deleted pointer itself
  have hdel_conflict : ∀ q₂ rq, q₂ ∈ tablePtrs s → alookup q₂ s.heap = some rq →
      q₂ ∉ mid.del → ∀ q ∈ mid.del, ∀ rd, alookup q mid.heap = some rd →
      rq.session_id ≠ rd.session_id := by
    intro q₂ rq hq₂ hrq hnd q hq rd hrd hconf
    obtain ⟨u', r₀, hm₀, hl₀, hexp₀⟩ := hdel q hq
    obtain ⟨r₁, hl₁, hrel₁⟩ := hb q rd hrd
    rw [hl₀] at hl₁
    cases hl₁
    have hrdsid : rd.session_id = r₀.session_id := by
      rcases hrel₁ with h | ⟨h, -⟩ <;> rw [h]
    have hq₂q : q₂ = q :=
      facts.sid_inj q₂ hq₂ q (mem_tablePtrs_ufrag hm₀) rq r₀ hrq hl₀
        (by rw [hconf, hrdsid])
    exact hnd (hq₂q ▸ hq)
  -- a session-table entry not pointed at by the delete list survives phase 2
  have hsess_surv : ∀ q₂ rq, q₂ ∈ tablePtrs s → alookup q₂ s.heap = some rq →
      q₂ ∉ mid.del → alookup rq.session_id s.session_table = some q₂ →
      alookup rq.session_id sessT = some q₂ := by
    intro q₂ rq hq₂ hrq hnd hsess
    have hmem : (rq.session_id, q₂) ∈ sessT := by
      refine hkeepS (rq.session_id, q₂) (alookup_mem hsess) ?_
      intro q hq rd hrd
      exact hdel_conflict q₂ rq hq₂ hrq hnd q hq rd hrd
    exact alookup_of_mem_nodup
      (List.Nodup.sublist (List.Sublist.map _ hsubS) facts.sess_nodup) hmem
  refine ⟨?_, ?_, ?_, ?_, ?_, ?_, ?_, ?_, ?_⟩
  · intro e he
    have hmem : e ∈ s.user_mapping_table := hsub.subset he
    obtain ⟨r, hr, huf⟩ := facts.ufrag_key e hmem
    obtain ⟨r', hr', hrel⟩ := ha e.2 r hr
    refine ⟨r', hr', ?_⟩
    rcases hrel with h | h <;> rw [h] <;> exact huf
  · intro e he
    have hmemA : e ∈ s.ice_port_info := hsubA.subset he
    obtain ⟨r, hr, hkey, hst, hremote, hsess⟩ := facts.addr_key e hmemA
    obtain ⟨r', hr', hrel⟩ := ha e.2 r hr
    have hnd : e.2 ∉ mid.del := by
      intro hin
      have := (hrem e.2 hin r' hr').1 e he
      rcases hrel with h | h <;> rw [h] at this <;> exact this hkey.symm
    refine ⟨r', hr', ?_, ?_, ?_, ?_⟩
    · rcases hrel with h | h <;> rw [h] <;> exact hkey
    · rcases hrel with h | h <;> rw [h]
      · exact hst
      · intro hc
        cases hc
    · rcases hrel with h | h <;> rw [h] <;> exact hremote
    · have hs := hsess_surv e.2 r (mem_tablePtrs_addr hmemA) hr hnd hsess
      rcases hrel with h | h <;> rw [h] <;> exact hs
  · intro e he
    have hmemS : e ∈ s.session_table := hsubS.subset he
    obtain ⟨r, hr, hkey, hst, hremote⟩ := facts.sess_key e hmemS
    obtain ⟨r', hr', hrel⟩ := ha e.2 r hr
    refine ⟨r', hr', ?_, ?_, ?_⟩
    · rcases hrel with h | h <;> rw [h] <;> exact hkey
    · rcases hrel with h | h <;> rw [h]
      · exact hst
      · intro hc
        cases hc
    · rcases hrel with h | h <;> rw [h] <;> exact hremote
  · exact List.Nodup.sublist (List.Sublist.map _ hsub) facts.ufrag_nodup
  · exact List.Nodup.sublist (List.Sublist.map _ hsubA) facts.addr_nodup
  · exact List.Nodup.sublist (List.Sublist.map _ hsubS) facts.sess_nodup
  · refine @sid_inj_transfer s _ ?_ ?_ facts.sid_inj
    · intro q hq
      rcases tablePtrs_cases hq with ⟨e, he, hq'⟩ | ⟨e, he, hq'⟩ | ⟨e, he, hq'⟩
      · exact hq' ▸ mem_tablePtrs_ufrag (hsub.subset he)
      · exact hq' ▸ mem_tablePtrs_addr (hsubA.subset he)
      · exact hq' ▸ mem_tablePtrs_sess (hsubS.subset he)
    · intro q r' hr'
      obtain ⟨r, hr, hrel⟩ := hb q r' hr'
      refine ⟨r, hr, ?_⟩
      rcases hrel with h | ⟨h, -⟩ <;> rw [h]
  · intro q hq
    have hq' : (alookup q mid.heap).isSome = true := hq
    obtain ⟨r', hr'⟩ := Option.isSome_iff_exists.mp hq'
    obtain ⟨r, hr, -⟩ := hb q r' hr'
    exact facts.fresh q (by rw [hr]; rfl)
  · intro e he
    have hmem : e ∈ s.user_mapping_table := hsub.subset he
    obtain ⟨rk, hrk, hnexp⟩ := hkept e he
    obtain ⟨r, hr, hdisj⟩ := facts.ufrag_bound e hmem
    have hkr : rk = r := by
      rw [hr] at hrk
      exact (Option.some.inj hrk).symm
    rw [hkr] at hnexp
    have hnd : e.2 ∉ mid.del := by
      intro hin
      obtain ⟨u', r₀, hm₀, hl₀, hexp₀⟩ := hdel e.2 hin
      rw [hr] at hl₀
      have h0 : r₀ = r := (Option.some.inj hl₀).symm
      rw [h0] at hexp₀
      rw [hexp₀] at hnexp
      cases hnexp
    obtain ⟨r', hr', hrel⟩ := ha e.2 r hr
    have hrr : r' = r := by
      obtain ⟨r₂, hr₂, hrel₂⟩ := hb e.2 r' hr'
      rw [hr] at hr₂
      have h2 : r₂ = r := (Option.some.inj hr₂).symm
      rw [h2] at hrel₂
      rcases hrel₂ with h | ⟨-, hin⟩
      · exact h
      · exact absurd hin hnd
    rw [hrr] at hr'
    refine ⟨r, hr', ?_⟩
    rcases hdisj with hnew | ⟨hremote, hsess⟩
    · exact Or.inl hnew
    · exact Or.inr ⟨hremote,
        hsess_surv e.2 r (mem_tablePtrs_ufrag hmem) hr hnd hsess⟩

/-- The registry states reachable through the ICE port's operations.
`AddSession` carries the signaling layer's contract that session ids are
unique (spec §3, registry invariant 3). -/
inductive Reachable : IcePort → Prop
  | init : Reachable emptyIcePort
  | add (s : IcePort) (session_id : Nat) (offer_sdp peer_sdp : SessionDescription)
      (expire_after_ms now : Nat) :
      Reachable s → sidFresh s session_id = true →
      Reachable (addSession s session_id offer_sdp peer_sdp expire_after_ms now).port
  | request (s : IcePort) (now : Nat) (remote : Socket) (address : SocketAddress)
      (msg : StunBindingRequest) (r : ReqResult) :
      Reachable s → processBindingRequest s now remote address msg = some r →
      Reachable r.port
  | response (s : IcePort) (address : SocketAddress) (msg : StunBindingRequest)
      (r : RespResult) :
      Reachable s → processBindingResponse s address msg = some r → Reachable r.port
  | remove (s : IcePort) (session_id : Nat) (b : Bool) (s' : IcePort) :
      Reachable s → removeSession s session_id = some (b, s') → Reachable s'
  | timeout (s : IcePort) (now : Nat) (r : TimeoutResult) :
      Reachable s → checkTimedoutItem s now = some r → Reachable r.port

/-- Every reachable registry state satisfies the registry invariant. -/
theorem reachable_invFacts {s : IcePort} (h : Reachable s) : InvFacts s := by
  induction h with
  | init => exact invFacts_empty
  | add s sid o pe ems now _ hfresh ih =>
    exact invFacts_addSession s sid o pe ems now ih hfresh
  | request s now remote address msg r _ heq ih =>
    exact invFacts_processBindingRequest s now remote address msg r ih heq
  | response s address msg r _ heq ih =>
    exact invFacts_processBindingResponse s address msg r ih heq
  | remove s sid b s' _ heq ih =>
    exact invFacts_removeSession s sid b s' ih heq
  | timeout s now r _ heq ih =>
    exact invFacts_checkTimedoutItem s now r ih heq

/-! ## Claim C10 — session-table records always carry a bound socket -/

/-- C10: in every reachable registry state, every record in the session-id
table has a non-null `remote` socket handle — insertion into the address and
session-id tables happens only after the remote socket and address have been
captured — so `Send`'s dereference of `remote` never sees null: `send`
always returns a value (`isSome`) instead of crashing. -/
theorem claim10_session_table_remote_bound (s : IcePort) (session_id : Nat)
    (data : List Nat) (h : Reachable s) :
    sessionRemotesBound s = true ∧ (send s session_id data).isSome = true := by
  have facts := reachable_invFacts h
  constructor
  · rw [sessionRemotesBound, List.all_eq_true]
    intro e he
    obtain ⟨r, hr, -, -, hrem⟩ := facts.sess_key e he
    rw [hr]
    exact hrem
  · cases hfind : alookup session_id s.session_table with
    | none => rw [send, hfind]; rfl
    | some p =>
      obtain ⟨r, hr, -, -, hrem⟩ := facts.sess_key (session_id, p) (alookup_mem hfind)
      have hr' : alookup p s.heap = some r := hr
      obtain ⟨sock, hsock⟩ := Option.isSome_iff_exists.mp hrem
      simp only [send, hfind, hr', hsock]
      rfl

/-- The full result of the accepted binding request leading to `exPort2`. -/
def exReqResult : ReqResult :=
  { ok := true, port := exPort2, events := [(1, .Checking)],
    sends := [{ sock := exSock, dest := exAddr,
                packet := .bindingResponse [1, 2, 3] exAddr "pw" },
              { sock := exSock, dest := exAddr,
                packet := .bindingRequest "v:u" "pw2" }] }

/-- C10 witness: the state `exPort2`, reached by `addSession` followed by an
accepted binding request, has only bound records in its session table and a
total send path. -/
theorem claim10_witness :
    sessionRemotesBound exPort2 = true ∧ (send exPort2 1 [9, 9]).isSome = true :=
  claim10_session_table_remote_bound exPort2 1 [9, 9]
    (Reachable.request exPort1 5 exSock exAddr exReq exReqResult
      (Reachable.add emptyIcePort 1 ⟨"u", "pw"⟩ ⟨"v", "pw2"⟩ 30000 0 Reachable.init
        (by decide))
      (by decide))

end IceSpec
